import Mathlib

/-!
# RewritingTheRails: the browser controller `app.js`

A shallow embedding of `src/app.js`: the run and cancel click handlers, the
stream reader `readStream`, the geodesic helper `haversine`, and the route
playback started by `displayMap`.

JavaScript strings are Lean strings; the three string methods the script calls
(`split`, `includes`, `startsWith`) are defined on the character lists.  The
DOM elements are the fields of `UI`; the mutable globals, the controllers
created so far and the observable effects are the fields of `World`.  Numbers are
real numbers in the playback; the map library is a parameter, `MapLibrary`.
-/

namespace RewritingTheRails

/-! ## String methods used by the script -/

/-- The scan of `String.prototype.split` for a non-empty separator: `skip` counts
the characters of a matched separator that still have to be stepped over, `acc`
holds the current fragment reversed. -/
def splitGo (sep : List Char) : Nat → List Char → List Char → List (List Char)
  | _, [], acc => [acc.reverse]
  | skip + 1, _ :: cs, acc => splitGo sep skip cs acc
  | 0, c :: cs, acc =>
    if sep.isPrefixOf (c :: cs) then acc.reverse :: splitGo sep (sep.length - 1) cs []
    else splitGo sep 0 cs (c :: acc)

/-- Models `text.split(sep)`: the fragments between the non-overlapping occurrences of
`sep`, scanned left to right; an empty separator splits into single characters. -/
def split (text sep : String) : List String :=
  if sep.data = [] then text.data.map (fun c => String.mk [c])
  else (splitGo sep.data 0 text.data []).map String.mk

/-- Substring search on character lists: `sub` occurs at some position of the list. -/
def includesGo (sub : List Char) : List Char → Bool
  | [] => sub.isPrefixOf []
  | c :: cs => sub.isPrefixOf (c :: cs) || includesGo sub cs

/-- Models `line.includes(sub)`. -/
def includes (line sub : String) : Bool := includesGo sub.data line.data

/-- Models `line.startsWith(sub)`. -/
def startsWith (line sub : String) : Bool := sub.data.isPrefixOf line.data

/-! ## Data model -/

/-- The DOM properties the script writes: `progressBar.style.width`,
`progressText.textContent` and the `innerHTML` of the three containers. -/
structure UI where
  progressBarWidth : String
  progressText : String
  downloadsDiv : String
  mapPreview : String
  infoPanel : String
  deriving DecidableEq, Repr

/-- An uploaded file, `fileInput.files[0]` when the list is not empty. -/
structure File where
  name : String
  bytes : List Nat
  deriving DecidableEq, Repr

/-- A value appended to a `FormData`. -/
inductive FormValue where
  | file (f : File)
  | text (s : String)
  deriving DecidableEq, Repr

/-- A `FormData`: its entries in the order they were appended. -/
abbrev FormData := List (String × FormValue)

/-- A thrown JavaScript error, identified by its `name`. -/
structure JSError where
  name : String
  deriving DecidableEq, Repr

/-- Observable effects, in the order the script performs them.  The marks
`progress`, `done` and `cancelled` record which branch of the frame loop of
`readStream` handled a frame. -/
inductive Effect where
  | abort (c : Nat)
  | create (c : Nat)
  | fetchRun (body : FormData) (signal : Nat)
  | read
  | progress (label : String)
  | done
  | cancelled
  | displayMap
  | consoleError (name : String)
  deriving DecidableEq, Repr

/-- The state of the page: the DOM, the global `currentController` (line 12, initially
`null`), the `aborted` flag of every `AbortController` created so far (indexed by
creation order), the number of `Math.random()` draws consumed, and the effects so far. -/
structure World where
  ui : UI
  currentController : Option Nat
  controllers : List Bool
  randomCalls : Nat
  trace : List Effect
  deriving DecidableEq, Repr

/-- The page before any click: `let currentController = null` and no controller created. -/
def World.init (ui : UI) : World :=
  { ui := ui, currentController := none, controllers := [], randomCalls := 0, trace := [] }

/-- What one `await reader.read()` delivers: a decoded chunk (`done` false), the end of the
stream (`done` true), or a rejection. -/
inductive ReadResult where
  | chunk (text : String)
  | done
  | failed (err : JSError)
  deriving DecidableEq, Repr

/-- How `await fetch("/run", ...)` settles: rejected with an error, or resolved with a
response whose body delivers the given reads. -/
inductive FetchResult where
  | rejected (err : JSError)
  | response (reads : List ReadResult)
  deriving DecidableEq, Repr

/-! ## The frame loop of `readStream` (lines 42-72) -/

/-- The markup assigned to `infoPanel.innerHTML` on cancellation (lines 51 and 77). -/
def cancelledMessage : String := "<p>Operation Cancelled!</p>"

/-- The template literal assigned to `downloadsDiv.innerHTML` on completion (lines 60-64). -/
def downloadLinks : String :=
  "\n                        <a href=\"/outputs/optimized_route.geojson\" download>Download GeoJSON</a>\n                        <a href=\"/outputs/segment_details.csv\" download>Download CSV</a>\n                        <a href=\"/outputs/route_map.html\" download>Download Map</a>\n                    "

/-- Models `x.toFixed(0)` for `x ≥ 0`: the nearest integer, the larger one on a tie.  The
argument is taken exactly; binary64 rounds `Math.random()*80 + 10` first, which can move
the digit by one. -/
def toFixed0 (x : ℚ) : String := toString (Int.toNat ⌊x + 1 / 2⌋)

/-- Lines 51-54: the branch taken when the frame contains `"CANCELLED"`. -/
def handleCancelled (w : World) : World :=
  { w with
    ui := { w.ui with infoPanel := cancelledMessage, progressBarWidth := "0%",
                      progressText := "0%" }
    trace := w.trace ++ [Effect.cancelled] }

/-- Lines 58-65: the branch taken when the frame starts with `"done"`.  The call
`displayMap()` is not awaited; up to its first `await` it only issues a request, so
here it is recorded as an effect. -/
def handleDone (w : World) : World :=
  { w with
    ui := { w.ui with progressBarWidth := "100%", progressText := "100%",
                      downloadsDiv := downloadLinks }
    trace := w.trace ++ [Effect.done, Effect.displayMap] }

/-- Lines 67-68: the `else` branch.  `random` is the sequence of values returned by
`Math.random()`, each in `[0, 1)`. -/
def handleProgress (random : Nat → ℚ) (line : String) (w : World) : World :=
  { w with
    ui := { w.ui with progressText := line,
                      progressBarWidth := toFixed0 (random w.randomCalls * 80 + 10) ++ "%" }
    randomCalls := w.randomCalls + 1
    trace := w.trace ++ [Effect.progress line] }

/-- The loop `for(const line of lines)` of lines 47-70.  The flag is `false` when the
loop was left by the `return` of line 54, `true` when it ran to its end. -/
def forLines (random : Nat → ℚ) : List String → World → World × Bool
  | [], w => (w, true)
  | line :: rest, w =>
    if line = "" then forLines random rest w
    else if includes line "CANCELLED" then (handleCancelled w, false)
    else if startsWith line "done" then forLines random rest (handleDone w)
    else forLines random rest (handleProgress random line w)

/-- Line 43: `reader.read()` is called. -/
def issueRead (w : World) : World := { w with trace := w.trace ++ [Effect.read] }

/-- Lines 45-70 for one decoded chunk: split on the blank line and run the frame loop. -/
def onChunk (random : Nat → ℚ) (text : String) (w : World) : World × Bool :=
  forLines random (split text "\n\n") w

/-- The function `readStream` of lines 42-72, run against the reads the transport
delivers.  Each call issues one read; when the list is exhausted the read stays
pending.  A rejected read rejects the promise of `readStream`, which nothing awaits. -/
def readStream (random : Nat → ℚ) : List ReadResult → World → World
  | [], w => issueRead w
  | ReadResult.done :: _, w => issueRead w
  | ReadResult.failed _ :: _, w => issueRead w
  | ReadResult.chunk text :: rest, w =>
    match onChunk random text (issueRead w) with
    | (w1, true) => readStream random rest w1
    | (w1, false) => w1

/-! ## The click handlers (lines 21-87) -/

/-- The method `abort()` of controller `c`: its signal becomes aborted. -/
def abortController (c : Nat) (w : World) : World :=
  { w with controllers := w.controllers.set c true, trace := w.trace ++ [Effect.abort c] }

/-- The expression `x.abort()` for a nullable `x`: a call on `null` throws a `TypeError`. -/
def callAbort : Option Nat → World → Except JSError World
  | none, _ => Except.error { name := "TypeError" }
  | some c, w => Except.ok (abortController c w)

/-- Lines 22 and 86: `if(currentController) currentController.abort();`. -/
def abortCurrent (w : World) : Except JSError World :=
  if w.currentController.isSome then callAbort w.currentController w else Except.ok w

/-- Line 23: `currentController = new AbortController();`. -/
def newController (w : World) : Except JSError World :=
  Except.ok { w with
    currentController := some w.controllers.length
    controllers := w.controllers ++ [false]
    trace := w.trace ++ [Effect.create w.controllers.length] }

/-- Lines 25-29: the form built from `fileInput.files[0]` and `demoSelect.value`. -/
def buildFormData (file : Option File) (demoFile : String) : FormData :=
  match file with
  | some f => [("geojson_file", FormValue.file f)]
  | none => [("demo_file", FormValue.text demoFile)]

/-- Lines 31-35: the indicators and containers are cleared. -/
def resetUI (w : World) : Except JSError World :=
  Except.ok { w with
    ui := { progressBarWidth := "0%", progressText := "0%", downloadsDiv := "",
            mapPreview := "", infoPanel := "" } }

/-- Line 38: the request is issued with the signal of `currentController`. -/
def issueRun (file : Option File) (demoFile : String) (w : World) : Except JSError World :=
  match w.currentController with
  | none => Except.error { name := "TypeError" }
  | some c => Except.ok { w with trace := w.trace ++ [Effect.fetchRun (buildFormData file demoFile) c] }

/-- A click on one of the two buttons, with what the run handler reads from the inputs. -/
inductive Click where
  | run (file : Option File) (demoFile : String)
  | cancel
  deriving DecidableEq, Repr

/-- The statements a click handler executes before it returns or suspends, in order. -/
def clickSteps : Click → List (World → Except JSError World)
  | Click.run file demoFile => [abortCurrent, newController, resetUI, issueRun file demoFile]
  | Click.cancel => [abortCurrent]

/-- Runs statements in order; a thrown error ends the run. -/
def exec : List (World → Except JSError World) → World → Except JSError World
  | [], w => Except.ok w
  | step :: rest, w =>
    match step w with
    | Except.ok w1 => exec rest w1
    | Except.error e => Except.error e

/-- The run click handler up to the `await` of line 38. -/
def runClick (file : Option File) (demoFile : String) (w : World) : Except JSError World :=
  exec (clickSteps (Click.run file demoFile)) w

/-- The cancel click handler (lines 85-87). -/
def cancelClick (w : World) : Except JSError World :=
  exec (clickSteps Click.cancel) w

/-- The `catch` block of lines 75-81. -/
def catchHandler (err : JSError) (w : World) : World :=
  if err.name = "AbortError" then
    { w with ui := { w.ui with infoPanel := cancelledMessage } }
  else
    { w with trace := w.trace ++ [Effect.consoleError err.name] }

/-- The `try` block once `fetch` has settled: a rejection goes to the `catch` block, a
response starts `readStream` (line 73). -/
def afterFetch (random : Nat → ℚ) : FetchResult → World → World
  | FetchResult.rejected err, w => catchHandler err w
  | FetchResult.response reads, w => readStream random reads w

/-- The clicks that arrive while a handler is suspended, each run to its own suspension. -/
def execClicks (clicks : List Click) (w : World) : Except JSError World :=
  exec (clicks.flatMap clickSteps) w

/-- What the page reacts to: a click, or the settling of a pending `fetch`, which runs the
rest of the `try` block or the `catch` block of the invocation that awaited it. -/
inductive PageEvent where
  | click (c : Click)
  | settled (random : Nat → ℚ) (result : FetchResult)

/-- The statements run in reaction to an event, in order. -/
def eventSteps : PageEvent → List (World → Except JSError World)
  | PageEvent.click c => clickSteps c
  | PageEvent.settled random result => [fun w => Except.ok (afterFetch random result w)]

/-- One invocation of the run click handler: the statements before the `await`, the clicks
handled while the request is pending, and the continuation once `fetch` has settled. -/
def runHandler (random : Nat → ℚ) (file : Option File) (demoFile : String)
    (during : List Click) (result : FetchResult) (w : World) : Except JSError World :=
  match runClick file demoFile w with
  | Except.error e => Except.error e
  | Except.ok w1 =>
    match execClicks during w1 with
    | Except.error e => Except.error e
    | Except.ok w2 => Except.ok (afterFetch random result w2)

/-! ## The geodesic helper `haversine` (lines 111-118) -/

/-- The members of the JavaScript `Math` object that `haversine` uses, over a number type
`α`: `Math.PI`, `Math.sin`, `Math.cos`, `Math.sqrt` and `Math.atan2` (first argument `y`,
second `x`). -/
structure JSMath (α : Type) where
  PI : α
  sin : α → α
  cos : α → α
  sqrt : α → α
  atan2 : α → α → α

/-- The function `haversine` of lines 111-118, statement by statement, over any number type
that has the arithmetic operators and the literals of the source. -/
def haversine {α : Type} [Add α] [Sub α] [Mul α] [Div α] [HPow α ℕ α]
    [OfNat α 1] [OfNat α 2] [OfNat α 180] [OfNat α 6371]
    (M : JSMath α) (lat1 lon1 lat2 lon2 : α) : α :=
  let R : α := 6371
  let dLat := (lat2 - lat1) * M.PI / 180
  let dLon := (lon2 - lon1) * M.PI / 180
  let a := M.sin (dLat / 2) ^ 2
    + M.cos (lat1 * M.PI / 180) * M.cos (lat2 * M.PI / 180) * M.sin (dLon / 2) ^ 2
  let c := 2 * M.atan2 (M.sqrt a) (M.sqrt (1 - a))
  R * c

/-- The sign laws of the arithmetic: negation commutes with subtraction, multiplication and
division, the sine is odd, squaring forgets the sign, and multiplication commutes.  They
hold for the real numbers, and they are the laws of sign-symmetric rounding. -/
structure SignLaws {α : Type} [Sub α] [Mul α] [Div α] [Neg α] [HPow α ℕ α]
    (M : JSMath α) : Prop where
  sub_swap : ∀ x y : α, x - y = -(y - x)
  neg_mul : ∀ x y : α, -x * y = -(x * y)
  neg_div : ∀ x y : α, -x / y = -(x / y)
  sin_neg : ∀ x : α, M.sin (-x) = -M.sin x
  neg_sq : ∀ x : α, (-x) ^ 2 = x ^ 2
  mul_comm : ∀ x y : α, x * y = y * x

/-- The two-argument arctangent on the reals: the angle in `(-π, π]` of the point `(x, y)`,
and `0` at the origin. -/
noncomputable def atan2 (y x : ℝ) : ℝ := Complex.arg ⟨x, y⟩

/-- The `Math` object over the real numbers: JavaScript numbers read as exact reals.  The
rounding of binary64 is not represented: where the script computes `a` slightly above `1`
and `Math.sqrt(1 - a)` is `NaN`, this reading has `a ≤ 1` and a finite result. -/
noncomputable def realMath : JSMath ℝ :=
  { PI := Real.pi, sin := Real.sin, cos := Real.cos, sqrt := Real.sqrt, atan2 := atan2 }

/-- The fragments that precede the first fragment containing `"CANCELLED"`. -/
def beforeCancelled (lines : List String) : List String :=
  lines.takeWhile (fun l => !includes l "CANCELLED")

/-- A page with every DOM property empty, used for concrete runs. -/
def blankUI : UI :=
  { progressBarWidth := "", progressText := "", downloadsDiv := "", mapPreview := "",
    infoPanel := "" }

/-- The state after `if(currentController) currentController.abort();`. -/
def afterAbortCurrent (w : World) : World :=
  match w.currentController with
  | some c => abortController c w
  | none => w

/-- Every controller that is not aborted is the one held in `currentController`, so at
most one controller is live; and `currentController` refers to a created controller. -/
def AtMostOneLive (w : World) : Prop :=
  (∀ i : Nat, w.controllers[i]? = some false → w.currentController = some i) ∧
  (∀ c, w.currentController = some c → c < w.controllers.length)

/-- Every controller created so far is aborted. -/
def AllAborted (w : World) : Prop :=
  (∀ i : Nat, w.controllers[i]? ≠ some false) ∧
  (∀ c, w.currentController = some c → c < w.controllers.length)

/-- The effects of dispatching, in order, fragments none of which contains `"CANCELLED"`:
nothing for an empty fragment, `done` and `displayMap` for one that starts with `"done"`,
`progress` with the fragment as label for any other. -/
def frameEffects : List String → List Effect
  | [] => []
  | line :: rest =>
    if line = "" then frameEffects rest
    else if startsWith line "done" then Effect.done :: Effect.displayMap :: frameEffects rest
    else Effect.progress line :: frameEffects rest

/-! ## Route playback: `displayMap` (lines 90-136) -/

/-- Line 94: the points of the route as `[latitude, longitude]` pairs, from the
`[longitude, latitude]` pairs of the line feature of the artifact. -/
def latlngsOf (coords : List (ℝ × ℝ)) : List (ℝ × ℝ) :=
  coords.map (fun c => (c.2, c.1))

/-- The variables of one call of `displayMap` once line 127 has run: the constant
`latlngs`, the position of `marker` (`none` for `undefined`), the counters `idx` and
`totalDistance`, and whether the timer `interval` is still set. -/
structure Playback where
  latlngs : List (ℝ × ℝ)
  marker : Option (ℝ × ℝ)
  idx : Nat
  totalDistance : ℝ
  interval : Bool

/-- Line 109: `const speed = 60`, in km/h. -/
noncomputable def speed : ℝ := 60

/-- Line 123: `Math.floor((totalDistance / speed) * 60)`, with the quotient and the product
taken exactly; binary64 rounds both, which can move the floor by one at whole numbers. -/
noncomputable def minutes (totalDistance : ℝ) : ℤ := ⌊totalDistance / speed * 60⌋

/-- Models `x.toFixed(2)` for `x ≥ 0`: the nearest multiple of `0.01`, the larger one on a
tie, written with two decimals. -/
noncomputable def toFixed2 (x : ℝ) : String :=
  toString (Int.toNat ⌊x * 100 + 1 / 2⌋ / 100) ++ "."
    ++ (if Int.toNat ⌊x * 100 + 1 / 2⌋ % 100 < 10 then "0" else "")
    ++ toString (Int.toNat ⌊x * 100 + 1 / 2⌋ % 100)

/-- Line 124: the markup assigned to `infoPanel.innerHTML`. -/
noncomputable def statsMarkup (totalDistance : ℝ) : String :=
  "<p>Distance: " ++ toFixed2 totalDistance ++ " km | Time: "
    ++ toString (minutes totalDistance) ++ " min | Avg Speed: 60 km/h</p>"

/-- The function `updateStats` of lines 120-125, on the variables of its closure and the
markup of the info panel.  Reading a component of a point that is `undefined` throws. -/
noncomputable def updateStats (p : Playback) (infoPanel : String) :
    Except JSError (Playback × String) :=
  if p.idx = 0 then Except.ok (p, infoPanel)
  else
    match p.latlngs[p.idx - 1]?, p.latlngs[p.idx]? with
    | some a, some b =>
      Except.ok
        ({ p with totalDistance := p.totalDistance + haversine realMath a.1 a.2 b.1 b.2 },
         statsMarkup (p.totalDistance + haversine realMath a.1 a.2 b.1 b.2))
    | _, _ => Except.error { name := "TypeError" }

/-- The callback of `setInterval` (lines 127-135). -/
noncomputable def onTick (p : Playback) (infoPanel : String) :
    Except JSError (Playback × String) :=
  if p.idx ≥ p.latlngs.length then Except.ok ({ p with interval := false }, infoPanel)
  else
    match updateStats { p with marker := p.latlngs[p.idx]? } infoPanel with
    | Except.ok (p1, info) => Except.ok ({ p1 with idx := p1.idx + 1 }, info)
    | Except.error e => Except.error e

/-- One period of the timer: the callback runs if the timer is still set, and nothing
happens once `clearInterval` has been called. -/
noncomputable def timerFires (p : Playback) (infoPanel : String) :
    Except JSError (Playback × String) :=
  if p.interval then onTick p infoPanel else Except.ok (p, infoPanel)

/-- The state after `k` periods of the timer. -/
noncomputable def runTicks : Nat → Playback × String → Except JSError (Playback × String)
  | 0, s => Except.ok s
  | k + 1, s =>
    match runTicks k s with
    | Except.ok s1 => timerFires s1.1 s1.2
    | Except.error e => Except.error e

/-- Lines 105-108 and 127: the marker is created at `latlngs[0]`, `idx` and `totalDistance`
start at `0`, and the timer is set. -/
noncomputable def startPlayback (latlngs : List (ℝ × ℝ)) : Playback :=
  { latlngs := latlngs, marker := latlngs[0]?, idx := 0, totalDistance := 0,
    interval := true }

/-- What the script needs to know of the map library: whether `L.map` returns on a
container that already holds a map, and whether `setView` and `L.marker` accept an
`undefined` point. -/
structure MapLibrary where
  reinit : Bool
  undefinedPoint : Bool
  deriving DecidableEq, Repr

/-- Leaflet: `L.map` throws `Map container is already initialized.` on a container that
holds a map, and `setView` reads the latitude of its centre, which throws a `TypeError`
when the centre is `undefined`. -/
def leaflet : MapLibrary := { reinit := false, undefinedPoint := false }

/-- The page with its map: the state of the controls, whether the container
`map-preview` holds a map, and the playbacks started so far, one per completed
`displayMap` call, in call order. -/
structure Page where
  world : World
  mapCreated : Bool
  playbacks : List Playback

/-- The freshly loaded page. -/
def Page.init (ui : UI) : Page :=
  { world := World.init ui, mapCreated := false, playbacks := [] }

/-- The function `displayMap` from line 93 on, given the coordinates of the line feature of
the fetched artifact.  The second component is the error that rejects its promise, if
any: line 95 throws when the library refuses the container or the centre. -/
noncomputable def displayMapLoaded (lib : MapLibrary) (coords : List (ℝ × ℝ))
    (page : Page) : Page × Option JSError :=
  if page.mapCreated && !lib.reinit then (page, some { name := "Error" })
  else if (latlngsOf coords)[0]?.isNone && !lib.undefinedPoint then
    ({ page with mapCreated := true }, some { name := "TypeError" })
  else
    ({ page with
       mapCreated := true
       playbacks := page.playbacks ++ [startPlayback (latlngsOf coords)] }, none)

/-- The timer of playback `k` fires: its callback runs on its own variables and on the
info panel of the page. -/
noncomputable def fire (k : Nat) (page : Page) : Except JSError Page :=
  match page.playbacks[k]? with
  | none => Except.ok page
  | some p =>
    match timerFires p page.world.ui.infoPanel with
    | Except.ok (p1, info) =>
      Except.ok { page with
        playbacks := page.playbacks.set k p1
        world := { page.world with ui := { page.world.ui with infoPanel := info } } }
    | Except.error e => Except.error e

/-- What drives the map: a route load, or the timer of one playback firing. -/
inductive MapEvent where
  | load (coords : List (ℝ × ℝ))
  | tick (k : Nat)

/-- The page after one event.  An error thrown by a timer callback would be reported by
the browser and leave the page as it is. -/
noncomputable def mapStep (lib : MapLibrary) : MapEvent → Page → Page
  | MapEvent.load coords, page => (displayMapLoaded lib coords page).1
  | MapEvent.tick k, page =>
    match fire k page with
    | Except.ok page1 => page1
    | Except.error _ => page

/-- The page after a sequence of events. -/
noncomputable def runMap (lib : MapLibrary) (events : List MapEvent) (page : Page) : Page :=
  events.foldl (fun pg e => mapStep lib e pg) page

/-- The number of timers that are set. -/
def activeTimers (page : Page) : Nat :=
  (page.playbacks.filter (fun p => p.interval)).length

/-- The number of route loads among the events. -/
def loadCount : List MapEvent → Nat
  | [] => 0
  | MapEvent.load _ :: rest => loadCount rest + 1
  | MapEvent.tick _ :: rest => loadCount rest

/-- The distance of leg `i`, from point `i` to point `i + 1` of the route, and `0` when
the route has no such leg. -/
noncomputable def leg (latlngs : List (ℝ × ℝ)) (i : Nat) : ℝ :=
  match latlngs[i]?, latlngs[i + 1]? with
  | some a, some b => haversine realMath a.1 a.2 b.1 b.2
  | _, _ => 0

/-- The sum of the first `m - 1` legs: the distance covered when the cursor is `m`. -/
noncomputable def distanceAfter (latlngs : List (ℝ × ℝ)) (m : Nat) : ℝ :=
  Finset.sum (Finset.range (m - 1)) (leg latlngs)

/-- The closed form of the playback after `k` periods of the timer, started on `latlngs`
with the info panel showing `info0`. -/
noncomputable def playbackAfter (latlngs : List (ℝ × ℝ)) (info0 : String) (k : Nat) :
    Playback × String :=
  ({ latlngs := latlngs
     marker := latlngs[min k latlngs.length - 1]?
     idx := min k latlngs.length
     totalDistance := distanceAfter latlngs (min k latlngs.length)
     interval := decide (k ≤ latlngs.length) },
   if min k latlngs.length ≤ 1 then info0
   else statsMarkup (distanceAfter latlngs (min k latlngs.length)))

/-! ## String lemmas -/

theorem includesGo_iff (sub l : List Char) : includesGo sub l = true ↔ sub <:+: l := by
  induction l with
  | nil => simp [includesGo]
  | cons c cs ih =>
    rw [includesGo, Bool.or_eq_true, ih, List.infix_cons_iff, List.isPrefixOf_iff_prefix]

theorem includes_iff (line sub : String) : includes line sub = true ↔ sub.data <:+: line.data :=
  includesGo_iff sub.data line.data

theorem startsWith_iff (line sub : String) :
    startsWith line sub = true ↔ sub.data <+: line.data := by
  unfold startsWith
  exact List.isPrefixOf_iff_prefix

theorem includes_empty_line (sub : String) (h : sub ≠ "") : includes "" sub = false := by
  cases hb : includes "" sub with
  | false => rfl
  | true =>
    exfalso
    have h1 := (includes_iff "" sub).1 hb
    have h2 : sub.data = [] := by simpa using h1
    exact h (String.ext h2)

theorem splitGo_of_not_infix (sep : List Char) :
    ∀ (l acc : List Char), ¬ sep <:+: l → splitGo sep 0 l acc = [acc.reverse ++ l] := by
  intro l
  induction l with
  | nil => intro acc _; simp [splitGo]
  | cons c cs ih =>
    intro acc h
    have hp : sep.isPrefixOf (c :: cs) = false := by
      cases hb : sep.isPrefixOf (c :: cs) with
      | false => rfl
      | true => exact absurd (List.isPrefixOf_iff_prefix.1 hb).isInfix h
    have hcs : ¬ sep <:+: cs := fun hi => h (List.infix_cons hi)
    rw [splitGo, hp]
    simp [ih (c :: acc) hcs]

theorem split_of_not_infix (text sep : String) (h : ¬ sep.data <:+: text.data) :
    split text sep = [text] := by
  have hne : sep.data ≠ [] := fun he => h (he ▸ List.nil_infix)
  unfold split
  rw [if_neg hne, splitGo_of_not_infix sep.data text.data [] h]
  simp

/-! ## Lemmas on the frame loop -/

theorem forLines_cons_empty (random : Nat → ℚ) (rest : List String) (w : World) :
    forLines random ("" :: rest) w = forLines random rest w := by
  simp [forLines]

theorem forLines_cons_cancel (random : Nat → ℚ) (line : String) (rest : List String)
    (w : World) (hc : includes line "CANCELLED" = true) :
    forLines random (line :: rest) w = (handleCancelled w, false) := by
  have hne : line ≠ "" := by
    intro he
    rw [he, includes_empty_line "CANCELLED" (by decide)] at hc
    exact Bool.noConfusion hc
  simp [forLines, hne, hc]

theorem forLines_cons_done (random : Nat → ℚ) (line : String) (rest : List String)
    (w : World) (hne : line ≠ "") (hc : includes line "CANCELLED" = false)
    (hd : startsWith line "done" = true) :
    forLines random (line :: rest) w = forLines random rest (handleDone w) := by
  simp [forLines, hne, hc, hd]

theorem forLines_cons_progress (random : Nat → ℚ) (line : String) (rest : List String)
    (w : World) (hne : line ≠ "") (hc : includes line "CANCELLED" = false)
    (hd : startsWith line "done" = false) :
    forLines random (line :: rest) w = forLines random rest (handleProgress random line w) := by
  simp [forLines, hne, hc, hd]

theorem forLines_no_cancel (random : Nat → ℚ) :
    ∀ (lines : List String) (w : World),
      (∀ l ∈ lines, includes l "CANCELLED" = false) →
      (forLines random lines w).2 = true ∧
      (forLines random lines w).1.trace = w.trace ++ frameEffects lines := by
  intro lines
  induction lines with
  | nil => intro w _; simp [forLines, frameEffects]
  | cons line rest ih =>
    intro w h
    have hl : includes line "CANCELLED" = false := h line (List.mem_cons_self _ _)
    have hr : ∀ l ∈ rest, includes l "CANCELLED" = false :=
      fun l hm => h l (List.mem_cons_of_mem _ hm)
    by_cases he : line = ""
    · subst he
      rw [forLines_cons_empty]
      simpa [frameEffects] using ih w hr
    · cases hd : startsWith line "done" with
      | true =>
        rw [forLines_cons_done random line rest w he hl hd]
        refine ⟨(ih _ hr).1, ?_⟩
        rw [(ih _ hr).2]
        simp [handleDone, frameEffects, he, hd]
      | false =>
        rw [forLines_cons_progress random line rest w he hl hd]
        refine ⟨(ih _ hr).1, ?_⟩
        rw [(ih _ hr).2]
        simp [handleProgress, frameEffects, he, hd]

theorem forLines_first_cancel (random : Nat → ℚ) :
    ∀ (pre : List String) (c : String) (post : List String) (w : World),
      (∀ l ∈ pre, includes l "CANCELLED" = false) → includes c "CANCELLED" = true →
      forLines random (pre ++ c :: post) w = (handleCancelled (forLines random pre w).1, false) := by
  intro pre
  induction pre with
  | nil =>
    intro c post w _ hc
    simpa [forLines] using forLines_cons_cancel random c post w hc
  | cons line rest ih =>
    intro c post w h hc
    have hl : includes line "CANCELLED" = false := h line (List.mem_cons_self _ _)
    have hr : ∀ l ∈ rest, includes l "CANCELLED" = false :=
      fun l hm => h l (List.mem_cons_of_mem _ hm)
    by_cases he : line = ""
    · subst he
      rw [List.cons_append, forLines_cons_empty, forLines_cons_empty]
      exact ih c post w hr hc
    · cases hd : startsWith line "done" with
      | true =>
        rw [List.cons_append, forLines_cons_done random line _ w he hl hd,
          forLines_cons_done random line _ w he hl hd]
        exact ih c post _ hr hc
      | false =>
        rw [List.cons_append, forLines_cons_progress random line _ w he hl hd,
          forLines_cons_progress random line _ w he hl hd]
        exact ih c post _ hr hc

theorem frameEffects_progress :
    ∀ (lines : List String), (∀ l ∈ lines, startsWith l "done" = false) →
      frameEffects lines = (lines.filter (fun l => l ≠ "")).map Effect.progress := by
  intro lines
  induction lines with
  | nil => intro _; rfl
  | cons line rest ih =>
    intro h
    have hl : startsWith line "done" = false := h line (List.mem_cons_self _ _)
    have hr := ih (fun l hm => h l (List.mem_cons_of_mem _ hm))
    by_cases he : line = ""
    · simp [frameEffects, he, hr]
    · simp [frameEffects, he, hl, hr]

theorem forLines_filter_nonempty (random : Nat → ℚ) :
    ∀ (lines : List String) (w : World),
      forLines random lines w = forLines random (lines.filter (fun l => l ≠ "")) w := by
  intro lines
  induction lines with
  | nil => intro w; rfl
  | cons line rest ih =>
    intro w
    by_cases he : line = ""
    · subst he
      rw [forLines_cons_empty, ih w]
      simp
    · have hf : (line :: rest).filter (fun l => l ≠ "") =
          line :: rest.filter (fun l => l ≠ "") := by simp [he]
      rw [hf]
      cases hc : includes line "CANCELLED" with
      | true => rw [forLines_cons_cancel random line _ w hc, forLines_cons_cancel random line _ w hc]
      | false =>
        cases hd : startsWith line "done" with
        | true =>
          rw [forLines_cons_done random line _ w he hc hd,
            forLines_cons_done random line _ w he hc hd]
          exact ih _
        | false =>
          rw [forLines_cons_progress random line _ w he hc hd,
            forLines_cons_progress random line _ w he hc hd]
          exact ih _

theorem frameEffects_no_cancelled_no_read :
    ∀ (lines : List String),
      Effect.cancelled ∉ frameEffects lines ∧ Effect.read ∉ frameEffects lines := by
  intro lines
  induction lines with
  | nil => simp [frameEffects]
  | cons line rest ih =>
    by_cases he : line = ""
    · simpa [frameEffects, he] using ih
    · cases hd : startsWith line "done" with
      | true => simpa [frameEffects, he, hd] using ih
      | false => simpa [frameEffects, he, hd] using ih

theorem beforeCancelled_spec :
    ∀ (lines : List String), (∃ l ∈ lines, includes l "CANCELLED" = true) →
      ∃ c post, lines = beforeCancelled lines ++ c :: post ∧ includes c "CANCELLED" = true := by
  intro lines
  induction lines with
  | nil => intro h; obtain ⟨l, hl, _⟩ := h; cases hl
  | cons line rest ih =>
    intro h
    cases hc : includes line "CANCELLED" with
    | true => exact ⟨line, rest, by simp [beforeCancelled, hc], hc⟩
    | false =>
      have hrest : ∃ l ∈ rest, includes l "CANCELLED" = true := by
        obtain ⟨l, hl, hi⟩ := h
        rcases List.mem_cons.1 hl with heq | hm
        · rw [heq, hc] at hi; exact Bool.noConfusion hi
        · exact ⟨l, hm, hi⟩
      obtain ⟨c, post, hsplit, hcc⟩ := ih hrest
      refine ⟨c, post, ?_, hcc⟩
      have hb : beforeCancelled (line :: rest) = line :: beforeCancelled rest := by
        simp [beforeCancelled, hc]
      rw [hb, List.cons_append, ← hsplit]

theorem beforeCancelled_no_cancel (lines : List String) :
    ∀ l ∈ beforeCancelled lines, includes l "CANCELLED" = false := by
  intro l hl
  have h := List.mem_takeWhile_imp hl
  simpa using h

theorem readStream_chunk_continue (random : Nat → ℚ) (text : String)
    (rest : List ReadResult) (w : World) (h : (onChunk random text (issueRead w)).2 = true) :
    readStream random (ReadResult.chunk text :: rest) w =
      readStream random rest (onChunk random text (issueRead w)).1 := by
  rw [readStream]
  generalize onChunk random text (issueRead w) = r at h ⊢
  obtain ⟨w1, b⟩ := r
  simp only at h
  subst h
  rfl

theorem readStream_chunk_stop (random : Nat → ℚ) (text : String)
    (rest : List ReadResult) (w : World) (h : (onChunk random text (issueRead w)).2 = false) :
    readStream random (ReadResult.chunk text :: rest) w =
      (onChunk random text (issueRead w)).1 := by
  rw [readStream]
  generalize onChunk random text (issueRead w) = r at h ⊢
  obtain ⟨w1, b⟩ := r
  simp only at h
  subst h
  rfl

set_option maxRecDepth 100000 in
theorem downloadLinks_anchors :
    (split downloadLinks "<a href=\"").length = 4 ∧
    includes downloadLinks "<a href=\"/outputs/optimized_route.geojson\" download>" = true ∧
    includes downloadLinks "<a href=\"/outputs/segment_details.csv\" download>" = true ∧
    includes downloadLinks "<a href=\"/outputs/route_map.html\" download>" = true := by
  refine ⟨?_, ?_, ?_, ?_⟩ <;> decide

/-! ## Lemmas on the click handlers -/

theorem abortCurrent_eq (w : World) : abortCurrent w = Except.ok (afterAbortCurrent w) := by
  unfold abortCurrent afterAbortCurrent
  cases h : w.currentController with
  | none => simp
  | some c => simp [callAbort]

theorem exec_append (a b : List (World → Except JSError World)) (w : World) :
    exec (a ++ b) w =
      match exec a w with
      | Except.ok w1 => exec b w1
      | Except.error e => Except.error e := by
  induction a generalizing w with
  | nil => rfl
  | cons step rest ih =>
    simp only [List.cons_append, exec]
    cases step w with
    | ok w1 => exact ih w1
    | error e => rfl

theorem cancelClick_eq (w : World) : cancelClick w = Except.ok (afterAbortCurrent w) := by
  simp [cancelClick, clickSteps, exec, abortCurrent_eq]

theorem runClick_eq (file : Option File) (demoFile : String) (w : World) :
    runClick file demoFile w = Except.ok
      { ui := { progressBarWidth := "0%", progressText := "0%", downloadsDiv := "",
                mapPreview := "", infoPanel := "" }
        currentController := some (afterAbortCurrent w).controllers.length
        controllers := (afterAbortCurrent w).controllers ++ [false]
        randomCalls := (afterAbortCurrent w).randomCalls
        trace := (afterAbortCurrent w).trace
          ++ [Effect.create (afterAbortCurrent w).controllers.length]
          ++ [Effect.fetchRun (buildFormData file demoFile)
                (afterAbortCurrent w).controllers.length] } := by
  simp [runClick, clickSteps, exec, abortCurrent_eq, newController, resetUI, issueRun]

theorem afterAbortCurrent_ui (w : World) : (afterAbortCurrent w).ui = w.ui := by
  unfold afterAbortCurrent
  cases w.currentController <;> rfl

theorem afterAbortCurrent_current (w : World) :
    (afterAbortCurrent w).currentController = w.currentController := by
  unfold afterAbortCurrent
  cases h : w.currentController with
  | none => exact h
  | some c => exact h

theorem afterAbortCurrent_length (w : World) :
    (afterAbortCurrent w).controllers.length = w.controllers.length := by
  unfold afterAbortCurrent
  cases w.currentController with
  | none => rfl
  | some c => simp [abortController]

theorem execClick_ok (c : Click) (w : World) :
    ∃ w1, exec (clickSteps c) w = Except.ok w1 ∧
      (w.ui.progressBarWidth = "0%" ∧ w.ui.progressText = "0%" →
        w1.ui.progressBarWidth = "0%" ∧ w1.ui.progressText = "0%") := by
  cases c with
  | cancel =>
    refine ⟨afterAbortCurrent w, cancelClick_eq w, ?_⟩
    rw [afterAbortCurrent_ui]
    exact id
  | run file demoFile => exact ⟨_, runClick_eq file demoFile w, fun _ => ⟨rfl, rfl⟩⟩

theorem execClicks_ok :
    ∀ (clicks : List Click) (w : World),
      ∃ w1, execClicks clicks w = Except.ok w1 ∧
        (w.ui.progressBarWidth = "0%" ∧ w.ui.progressText = "0%" →
          w1.ui.progressBarWidth = "0%" ∧ w1.ui.progressText = "0%") := by
  intro clicks
  induction clicks with
  | nil => intro w; exact ⟨w, rfl, id⟩
  | cons c rest ih =>
    intro w
    obtain ⟨w1, h1, p1⟩ := execClick_ok c w
    obtain ⟨w2, h2, p2⟩ := ih w1
    refine ⟨w2, ?_, fun hp => p2 (p1 hp)⟩
    unfold execClicks at h2 ⊢
    rw [List.flatMap_cons, exec_append, h1]
    exact h2

theorem afterAbortCurrent_trace (w : World) :
    (afterAbortCurrent w).trace =
      w.trace ++ (match w.currentController with
        | some p => [Effect.abort p]
        | none => []) := by
  unfold afterAbortCurrent
  cases w.currentController with
  | none => simp
  | some c => rfl

theorem afterAbortCurrent_allAborted (w : World) (h : AtMostOneLive w) :
    AllAborted (afterAbortCurrent w) := by
  obtain ⟨h1, h2⟩ := h
  refine ⟨?_, ?_⟩
  · intro i hi
    unfold afterAbortCurrent at hi
    cases hc : w.currentController with
    | none =>
      rw [hc] at hi
      have := h1 i hi
      rw [hc] at this
      exact Option.noConfusion this
    | some c =>
      rw [hc] at hi
      simp only [abortController] at hi
      by_cases hic : c = i
      · subst hic
        have hlt := h2 c hc
        rw [List.getElem?_set_self hlt] at hi
        simp at hi
      · rw [List.getElem?_set_ne hic] at hi
        have := h1 i hi
        rw [hc] at this
        exact hic (Option.some.inj this)
  · intro c hc
    rw [afterAbortCurrent_current] at hc
    rw [afterAbortCurrent_length]
    exact h2 c hc

theorem AllAborted.atMostOneLive {w : World} (h : AllAborted w) : AtMostOneLive w :=
  ⟨fun i hi => absurd hi (h.1 i), h.2⟩

theorem atMostOneLive_of_new (w0 w1 : World) (h : AllAborted w0)
    (hc : w1.controllers = w0.controllers ++ [false])
    (hcur : w1.currentController = some w0.controllers.length) : AtMostOneLive w1 := by
  refine ⟨?_, ?_⟩
  · intro i hi
    rw [hc] at hi
    rw [hcur]
    rcases Nat.lt_trichotomy i w0.controllers.length with hlt | heq | hgt
    · rw [List.getElem?_append_left hlt] at hi
      exact absurd hi (h.1 i)
    · rw [heq]
    · have hlen : (w0.controllers ++ [false]).length ≤ i := by
        simp only [List.length_append, List.length_singleton]
        omega
      rw [List.getElem?_eq_none hlen] at hi
      exact Option.noConfusion hi
  · intro c hcc
    rw [hcur] at hcc
    rw [hc, ← Option.some.inj hcc]
    simp

theorem allAborted_replicate {w : World} (h : AllAborted w) :
    w.controllers = List.replicate w.controllers.length true := by
  rw [List.eq_replicate_iff]
  refine ⟨rfl, ?_⟩
  intro b hb
  obtain ⟨i, hi⟩ := List.mem_iff_getElem?.1 hb
  cases b with
  | true => rfl
  | false => exact absurd hi (h.1 i)

theorem init_atMostOneLive (ui : UI) : AtMostOneLive (World.init ui) := by
  refine ⟨?_, ?_⟩
  · intro i hi
    simp [World.init] at hi
  · intro c hc
    simp [World.init] at hc

theorem execClick_inv (c : Click) (w : World) (h : AtMostOneLive w) :
    ∃ w1, exec (clickSteps c) w = Except.ok w1 ∧ AtMostOneLive w1 := by
  cases c with
  | cancel => exact ⟨_, cancelClick_eq w, (afterAbortCurrent_allAborted w h).atMostOneLive⟩
  | run file demoFile =>
    exact ⟨_, runClick_eq file demoFile w,
      atMostOneLive_of_new (afterAbortCurrent w) _ (afterAbortCurrent_allAborted w h) rfl rfl⟩

theorem execClicks_inv :
    ∀ (clicks : List Click) (w : World), AtMostOneLive w →
      ∃ w1, execClicks clicks w = Except.ok w1 ∧ AtMostOneLive w1 := by
  intro clicks
  induction clicks with
  | nil => intro w h; exact ⟨w, rfl, h⟩
  | cons c rest ih =>
    intro w h
    obtain ⟨w1, h1, p1⟩ := execClick_inv c w h
    obtain ⟨w2, h2, p2⟩ := ih w1 p1
    refine ⟨w2, ?_, p2⟩
    unfold execClicks at h2 ⊢
    rw [List.flatMap_cons, exec_append, h1]
    exact h2

theorem execSteps_prefix_inv (c : Click) (i : Nat) (w : World) (h : AtMostOneLive w) :
    ∃ w1, exec ((clickSteps c).take i) w = Except.ok w1 ∧ AtMostOneLive w1 := by
  have hab := afterAbortCurrent_allAborted w h
  cases c with
  | cancel =>
    match i with
    | 0 => exact ⟨w, rfl, h⟩
    | n + 1 =>
      refine ⟨afterAbortCurrent w, ?_, hab.atMostOneLive⟩
      simp [clickSteps, exec, abortCurrent_eq]
  | run file demoFile =>
    match i with
    | 0 => exact ⟨w, rfl, h⟩
    | 1 =>
      refine ⟨afterAbortCurrent w, ?_, hab.atMostOneLive⟩
      simp [clickSteps, exec, abortCurrent_eq]
    | 2 =>
      refine ⟨_, ?_, atMostOneLive_of_new (afterAbortCurrent w) (
        { afterAbortCurrent w with
          currentController := some (afterAbortCurrent w).controllers.length
          controllers := (afterAbortCurrent w).controllers ++ [false]
          trace := (afterAbortCurrent w).trace
            ++ [Effect.create (afterAbortCurrent w).controllers.length] }) hab rfl rfl⟩
      simp [clickSteps, exec, abortCurrent_eq, newController]
    | 3 =>
      refine ⟨_, ?_, atMostOneLive_of_new (afterAbortCurrent w) (
        { ui := { progressBarWidth := "0%", progressText := "0%", downloadsDiv := "",
                  mapPreview := "", infoPanel := "" }
          currentController := some (afterAbortCurrent w).controllers.length
          controllers := (afterAbortCurrent w).controllers ++ [false]
          randomCalls := (afterAbortCurrent w).randomCalls
          trace := (afterAbortCurrent w).trace
            ++ [Effect.create (afterAbortCurrent w).controllers.length] }) hab rfl rfl⟩
      simp [clickSteps, exec, abortCurrent_eq, newController, resetUI]
    | n + 4 =>
      refine ⟨_, ?_, atMostOneLive_of_new (afterAbortCurrent w) (
        { ui := { progressBarWidth := "0%", progressText := "0%", downloadsDiv := "",
                  mapPreview := "", infoPanel := "" }
          currentController := some (afterAbortCurrent w).controllers.length
          controllers := (afterAbortCurrent w).controllers ++ [false]
          randomCalls := (afterAbortCurrent w).randomCalls
          trace := (afterAbortCurrent w).trace
            ++ [Effect.create (afterAbortCurrent w).controllers.length]
            ++ [Effect.fetchRun (buildFormData file demoFile)
                  (afterAbortCurrent w).controllers.length] }) hab rfl rfl⟩
      simp [clickSteps, exec, abortCurrent_eq, newController, resetUI, issueRun]

theorem forLines_controllers (random : Nat → ℚ) :
    ∀ (lines : List String) (w : World),
      (forLines random lines w).1.controllers = w.controllers ∧
      (forLines random lines w).1.currentController = w.currentController := by
  intro lines
  induction lines with
  | nil => intro w; exact ⟨rfl, rfl⟩
  | cons line rest ih =>
    intro w
    by_cases he : line = ""
    · subst he
      rw [forLines_cons_empty]
      exact ih w
    · cases hc : includes line "CANCELLED" with
      | true =>
        rw [forLines_cons_cancel random line rest w hc]
        exact ⟨rfl, rfl⟩
      | false =>
        cases hd : startsWith line "done" with
        | true =>
          rw [forLines_cons_done random line rest w he hc hd]
          exact ih _
        | false =>
          rw [forLines_cons_progress random line rest w he hc hd]
          exact ih _

theorem readStream_controllers (random : Nat → ℚ) :
    ∀ (reads : List ReadResult) (w : World),
      (readStream random reads w).controllers = w.controllers ∧
      (readStream random reads w).currentController = w.currentController := by
  intro reads
  induction reads with
  | nil => intro w; exact ⟨rfl, rfl⟩
  | cons r rest ih =>
    intro w
    cases r with
    | done => exact ⟨rfl, rfl⟩
    | failed err => exact ⟨rfl, rfl⟩
    | chunk text =>
      have hf := forLines_controllers random (split text "\n\n") (issueRead w)
      cases hb : (onChunk random text (issueRead w)).2 with
      | true =>
        rw [readStream_chunk_continue random text rest w hb]
        have h1 := ih (onChunk random text (issueRead w)).1
        exact ⟨h1.1.trans hf.1, h1.2.trans hf.2⟩
      | false =>
        rw [readStream_chunk_stop random text rest w hb]
        exact hf

theorem afterFetch_controllers (random : Nat → ℚ) (result : FetchResult) (w : World) :
    (afterFetch random result w).controllers = w.controllers ∧
    (afterFetch random result w).currentController = w.currentController := by
  cases result with
  | rejected err =>
    show (catchHandler err w).controllers = w.controllers ∧
      (catchHandler err w).currentController = w.currentController
    unfold catchHandler
    by_cases h : err.name = "AbortError"
    · rw [if_pos h]; exact ⟨rfl, rfl⟩
    · rw [if_neg h]; exact ⟨rfl, rfl⟩
  | response reads => exact readStream_controllers random reads w

theorem execEvent_inv (e : PageEvent) (w : World) (h : AtMostOneLive w) :
    ∃ w1, exec (eventSteps e) w = Except.ok w1 ∧ AtMostOneLive w1 := by
  cases e with
  | click c => exact execClick_inv c w h
  | settled random result =>
    refine ⟨afterFetch random result w, rfl, ?_⟩
    have hc := afterFetch_controllers random result w
    unfold AtMostOneLive
    rw [hc.1, hc.2]
    exact h

theorem execEvents_inv :
    ∀ (events : List PageEvent) (w : World), AtMostOneLive w →
      ∃ w1, exec (events.flatMap eventSteps) w = Except.ok w1 ∧ AtMostOneLive w1 := by
  intro events
  induction events with
  | nil => intro w h; exact ⟨w, rfl, h⟩
  | cons e rest ih =>
    intro w h
    obtain ⟨w1, h1, p1⟩ := execEvent_inv e w h
    obtain ⟨w2, h2, p2⟩ := ih w1 p1
    refine ⟨w2, ?_, p2⟩
    rw [List.flatMap_cons, exec_append, h1]
    exact h2

/-! ## Claims on `readStream` -/

/-- C1: frame classification in `readStream`.  For every non-empty frame: if it contains
`"CANCELLED"` anywhere (also when it begins with `"done"`) the loop runs the Cancelled
branch and returns; otherwise, if it starts with `"done"`, the Done branch runs;
otherwise the Progress branch runs and the progress text becomes the frame unchanged. -/
theorem readStream_frame_classification (random : Nat → ℚ) (line : String)
    (rest : List String) (w : World) (hne : line ≠ "") :
    ("CANCELLED".data <:+: line.data →
      forLines random (line :: rest) w = (handleCancelled w, false) ∧
      (handleCancelled w).trace = w.trace ++ [Effect.cancelled]) ∧
    (¬ "CANCELLED".data <:+: line.data → "done".data <+: line.data →
      forLines random (line :: rest) w = forLines random rest (handleDone w) ∧
      (handleDone w).trace = w.trace ++ [Effect.done, Effect.displayMap]) ∧
    (¬ "CANCELLED".data <:+: line.data → ¬ "done".data <+: line.data →
      forLines random (line :: rest) w = forLines random rest (handleProgress random line w) ∧
      (handleProgress random line w).trace = w.trace ++ [Effect.progress line] ∧
      (handleProgress random line w).ui.progressText = line) := by
  refine ⟨?_, ?_, ?_⟩
  · intro hc
    exact ⟨forLines_cons_cancel random line rest w ((includes_iff _ _).2 hc), rfl⟩
  · intro hc hd
    have hc1 : includes line "CANCELLED" = false := by
      cases hb : includes line "CANCELLED" with
      | false => rfl
      | true => exact absurd ((includes_iff _ _).1 hb) hc
    exact ⟨forLines_cons_done random line rest w hne hc1 ((startsWith_iff _ _).2 hd), rfl⟩
  · intro hc hd
    have hc1 : includes line "CANCELLED" = false := by
      cases hb : includes line "CANCELLED" with
      | false => rfl
      | true => exact absurd ((includes_iff _ _).1 hb) hc
    have hd1 : startsWith line "done" = false := by
      cases hb : startsWith line "done" with
      | false => rfl
      | true => exact absurd ((startsWith_iff _ _).1 hb) hd
    exact ⟨forLines_cons_progress random line rest w hne hc1 hd1, rfl, rfl⟩

/-- Witness for C1: the frames `"done CANCELLED"`, `"done"` and `"50%"` take the Cancelled,
Done and Progress branches. -/
theorem readStream_frame_classification_witness :
    forLines (fun _ => 0) ["done CANCELLED"] (World.init blankUI)
      = (handleCancelled (World.init blankUI), false) ∧
    forLines (fun _ => 0) ["done"] (World.init blankUI)
      = forLines (fun _ => 0) [] (handleDone (World.init blankUI)) ∧
    (handleProgress (fun _ => 0) "50%" (World.init blankUI)).ui.progressText = "50%" :=
  ⟨((readStream_frame_classification (fun _ => 0) "done CANCELLED" [] (World.init blankUI)
      (by decide)).1 (by decide)).1,
   ((readStream_frame_classification (fun _ => 0) "done" [] (World.init blankUI)
      (by decide)).2.1 (by decide) (by decide)).1,
   ((readStream_frame_classification (fun _ => 0) "50%" [] (World.init blankUI)
      (by decide)).2.2 (by decide) (by decide)).2.2⟩

/-- C2: for every decoded chunk none of whose fragments contains `"CANCELLED"` or starts
with `"done"`, the frame loop runs to its end and emits exactly one Progress effect per
non-empty fragment, in fragment order, labelled with the fragment, and nothing for an
empty fragment; `readStream` then calls itself, which issues the next read. -/
theorem readStream_progress_chunk (random : Nat → ℚ) (text : String)
    (rest : List ReadResult) (w : World)
    (h : ∀ l ∈ split text "\n\n",
      ¬ "CANCELLED".data <:+: l.data ∧ ¬ "done".data <+: l.data) :
    (onChunk random text w).2 = true ∧
    (onChunk random text w).1.trace =
      w.trace ++ ((split text "\n\n").filter (fun l => l ≠ "")).map Effect.progress ∧
    readStream random (ReadResult.chunk text :: rest) w =
      readStream random rest (onChunk random text (issueRead w)).1 ∧
    (readStream random [ReadResult.chunk text] w).trace =
      w.trace ++ [Effect.read]
        ++ ((split text "\n\n").filter (fun l => l ≠ "")).map Effect.progress
        ++ [Effect.read] := by
  have hc : ∀ l ∈ split text "\n\n", includes l "CANCELLED" = false := by
    intro l hl
    cases hb : includes l "CANCELLED" with
    | false => rfl
    | true => exact absurd ((includes_iff _ _).1 hb) (h l hl).1
  have hd : ∀ l ∈ split text "\n\n", startsWith l "done" = false := by
    intro l hl
    cases hb : startsWith l "done" with
    | false => rfl
    | true => exact absurd ((startsWith_iff _ _).1 hb) (h l hl).2
  have key : ∀ w0 : World, (onChunk random text w0).2 = true ∧
      (onChunk random text w0).1.trace =
        w0.trace ++ ((split text "\n\n").filter (fun l => l ≠ "")).map Effect.progress := by
    intro w0
    have h1 := forLines_no_cancel random (split text "\n\n") w0 hc
    rw [frameEffects_progress _ hd] at h1
    exact h1
  have hstep : readStream random (ReadResult.chunk text :: rest) w =
      readStream random rest (onChunk random text (issueRead w)).1 := by
    have h2 := (key (issueRead w)).1
    rw [readStream]
    generalize onChunk random text (issueRead w) = r at h2 ⊢
    obtain ⟨w1, b⟩ := r
    simp only at h2
    subst h2
    rfl
  have hone : readStream random [ReadResult.chunk text] w =
      issueRead (onChunk random text (issueRead w)).1 := by
    have h2 := (key (issueRead w)).1
    rw [readStream]
    generalize onChunk random text (issueRead w) = r at h2 ⊢
    obtain ⟨w1, b⟩ := r
    simp only at h2
    subst h2
    rfl
  refine ⟨(key w).1, (key w).2, hstep, ?_⟩
  rw [hone]
  have h3 := (key (issueRead w)).2
  have h4 : (issueRead (onChunk random text (issueRead w)).1).trace =
      (onChunk random text (issueRead w)).1.trace ++ [Effect.read] := rfl
  have h5 : (issueRead w).trace = w.trace ++ [Effect.read] := rfl
  rw [h4, h3, h5]

/-- Witness for C2: the chunk `"building\n\n50%\n\n"` yields exactly the Progress effects
`"building"` then `"50%"`, between the read that delivered it and the next read. -/
theorem readStream_progress_chunk_witness :
    (readStream (fun _ => 0) [ReadResult.chunk "building\n\n50%\n\n"] (World.init blankUI)).trace
      = [Effect.read, Effect.progress "building", Effect.progress "50%", Effect.read] :=
  ((readStream_progress_chunk (fun _ => 0) "building\n\n50%\n\n" [] (World.init blankUI)
    (by decide)).2.2.2).trans (by decide)

/-- C3: for every decoded chunk in which some fragment contains `"CANCELLED"`,
`readStream` dispatches the fragments before the first such fragment, then runs the
Cancelled branch exactly once (progress bar width and progress text `"0%"`, info panel the
cancelled message) and returns: no later fragment of the chunk is dispatched and no further
read is issued, whatever the transport would still deliver. -/
theorem readStream_cancelled_chunk (random : Nat → ℚ) (text : String)
    (rest : List ReadResult) (w : World)
    (h : ∃ l ∈ split text "\n\n", "CANCELLED".data <:+: l.data) :
    (forLines random (beforeCancelled (split text "\n\n")) (issueRead w)).2 = true ∧
    readStream random (ReadResult.chunk text :: rest) w =
      handleCancelled (forLines random (beforeCancelled (split text "\n\n")) (issueRead w)).1 ∧
    (readStream random (ReadResult.chunk text :: rest) w).trace =
      w.trace ++ [Effect.read] ++ frameEffects (beforeCancelled (split text "\n\n"))
        ++ [Effect.cancelled] ∧
    Effect.cancelled ∉ frameEffects (beforeCancelled (split text "\n\n")) ∧
    Effect.read ∉ frameEffects (beforeCancelled (split text "\n\n")) ∧
    (readStream random (ReadResult.chunk text :: rest) w).ui.progressBarWidth = "0%" ∧
    (readStream random (ReadResult.chunk text :: rest) w).ui.progressText = "0%" ∧
    (readStream random (ReadResult.chunk text :: rest) w).ui.infoPanel = cancelledMessage := by
  have h1 : ∃ l ∈ split text "\n\n", includes l "CANCELLED" = true := by
    obtain ⟨l, hl, hi⟩ := h
    exact ⟨l, hl, (includes_iff _ _).2 hi⟩
  obtain ⟨c, post, hsplit, hc⟩ := beforeCancelled_spec _ h1
  have hpre := beforeCancelled_no_cancel (split text "\n\n")
  have hno := forLines_no_cancel random _ (issueRead w) hpre
  have hchunk : onChunk random text (issueRead w) =
      (handleCancelled
        (forLines random (beforeCancelled (split text "\n\n")) (issueRead w)).1, false) := by
    unfold onChunk
    conv_lhs => rw [hsplit]
    exact forLines_first_cancel random _ c post (issueRead w) hpre hc
  have hrs : readStream random (ReadResult.chunk text :: rest) w =
      handleCancelled
        (forLines random (beforeCancelled (split text "\n\n")) (issueRead w)).1 := by
    rw [readStream_chunk_stop random text rest w (by rw [hchunk]), hchunk]
  have htr : (handleCancelled
      (forLines random (beforeCancelled (split text "\n\n")) (issueRead w)).1).trace =
      w.trace ++ [Effect.read] ++ frameEffects (beforeCancelled (split text "\n\n"))
        ++ [Effect.cancelled] := by
    have h5 : (issueRead w).trace = w.trace ++ [Effect.read] := rfl
    have h6 : ∀ w0 : World, (handleCancelled w0).trace = w0.trace ++ [Effect.cancelled] :=
      fun _ => rfl
    rw [h6, hno.2, h5]
  refine ⟨hno.1, hrs, ?_, (frameEffects_no_cancelled_no_read _).1,
    (frameEffects_no_cancelled_no_read _).2, ?_, ?_, ?_⟩
  · rw [hrs, htr]
  · rw [hrs]; rfl
  · rw [hrs]; rfl
  · rw [hrs]; rfl

/-- Witness for C3: the chunk `"partial...CANCELLED...\n\n"` yields one Cancelled effect
after the read that delivered it and nothing else, also when more reads would follow. -/
theorem readStream_cancelled_chunk_witness :
    (readStream (fun _ => 0)
        [ReadResult.chunk "partial...CANCELLED...\n\n", ReadResult.chunk "50%\n\n"]
        (World.init blankUI)).trace
      = [Effect.read, Effect.cancelled] :=
  ((readStream_cancelled_chunk (fun _ => 0) "partial...CANCELLED...\n\n"
    [ReadResult.chunk "50%\n\n"] (World.init blankUI) (by decide)).2.2.1).trans (by decide)

/-- C4: for every decoded chunk whose only non-empty fragment starts with `"done"` and does
not contain `"CANCELLED"`, the frame loop runs the Done branch exactly once: progress bar
width and progress text become `"100%"`, the downloads area holds the three download
links, and `displayMap` is called exactly once. -/
theorem readStream_done_chunk (random : Nat → ℚ) (text line : String) (w : World)
    (hfrag : (split text "\n\n").filter (fun l => l ≠ "") = [line])
    (hd : "done".data <+: line.data) (hc : ¬ "CANCELLED".data <:+: line.data) :
    onChunk random text w = (handleDone w, true) ∧
    (onChunk random text w).1.trace = w.trace ++ [Effect.done, Effect.displayMap] ∧
    (onChunk random text w).1.ui.progressBarWidth = "100%" ∧
    (onChunk random text w).1.ui.progressText = "100%" ∧
    (onChunk random text w).1.ui.downloadsDiv = downloadLinks ∧
    (readStream random [ReadResult.chunk text] w).trace =
      w.trace ++ [Effect.read, Effect.done, Effect.displayMap, Effect.read] ∧
    (split downloadLinks "<a href=\"").length = 4 ∧
    includes downloadLinks "<a href=\"/outputs/optimized_route.geojson\" download>" = true ∧
    includes downloadLinks "<a href=\"/outputs/segment_details.csv\" download>" = true ∧
    includes downloadLinks "<a href=\"/outputs/route_map.html\" download>" = true := by
  have hne : line ≠ "" := by
    have hm : line ∈ (split text "\n\n").filter (fun l => l ≠ "") := by
      rw [hfrag]; exact List.mem_singleton_self _
    simpa using (List.mem_filter.1 hm).2
  have hc1 : includes line "CANCELLED" = false := by
    cases hb : includes line "CANCELLED" with
    | false => rfl
    | true => exact absurd ((includes_iff _ _).1 hb) hc
  have key : ∀ w0 : World, onChunk random text w0 = (handleDone w0, true) := by
    intro w0
    unfold onChunk
    rw [forLines_filter_nonempty, hfrag,
      forLines_cons_done random line [] w0 hne hc1 ((startsWith_iff _ _).2 hd)]
    rfl
  have hrs : readStream random [ReadResult.chunk text] w =
      issueRead (handleDone (issueRead w)) := by
    rw [readStream_chunk_continue random text [] w (by rw [key]), key]
    rfl
  refine ⟨key w, ?_, ?_, ?_, ?_, ?_, downloadLinks_anchors⟩
  · rw [key]; rfl
  · rw [key]; rfl
  · rw [key]; rfl
  · rw [key]; rfl
  · rw [hrs]
    simp [issueRead, handleDone]

/-- Witness for C4: the chunk `"done\n\n"` yields one Done effect and one call of
`displayMap`. -/
theorem readStream_done_chunk_witness :
    (onChunk (fun _ => 0) "done\n\n" (World.init blankUI)).1.trace
      = [Effect.done, Effect.displayMap] ∧
    (onChunk (fun _ => 0) "done\n\n" (World.init blankUI)).1.ui.progressText = "100%" :=
  ⟨((readStream_done_chunk (fun _ => 0) "done\n\n" "done" (World.init blankUI)
      (by decide) (by decide) (by decide)).2.1).trans (by decide),
   (readStream_done_chunk (fun _ => 0) "done\n\n" "done" (World.init blankUI)
      (by decide) (by decide) (by decide)).2.2.2.1⟩

/-- Counterexample to C5 as stated: the chunk `"building"` contains no `"\n\n"`, yet the
read dispatches one frame, the Progress event labelled `"building"`. -/
theorem readStream_chunk_without_delimiter_counterexample :
    ¬ "\n\n".data <:+: "building".data ∧
    split "building" "\n\n" = ["building"] ∧
    (onChunk (fun _ => 0) "building" (World.init blankUI)).1.trace
      = [Effect.progress "building"] ∧
    (onChunk (fun _ => 0) "building" (World.init blankUI)).1.ui.progressText = "building" := by
  refine ⟨?_, ?_, ?_, ?_⟩ <;> decide

/-- C5, amended: for every decoded chunk that contains no `"\n\n"`, the split yields exactly
one fragment, the whole chunk.  An empty chunk dispatches nothing; a non-empty chunk is
dispatched as one frame, classified like any other: Cancelled if it contains
`"CANCELLED"`, else Done if it starts with `"done"`, else Progress labelled with the chunk. -/
theorem readStream_chunk_without_delimiter (random : Nat → ℚ) (text : String) (w : World)
    (h : ¬ "\n\n".data <:+: text.data) :
    split text "\n\n" = [text] ∧
    (text = "" → onChunk random text w = (w, true)) ∧
    (text ≠ "" →
      ("CANCELLED".data <:+: text.data → onChunk random text w = (handleCancelled w, false)) ∧
      (¬ "CANCELLED".data <:+: text.data → "done".data <+: text.data →
        onChunk random text w = (handleDone w, true)) ∧
      (¬ "CANCELLED".data <:+: text.data → ¬ "done".data <+: text.data →
        onChunk random text w = (handleProgress random text w, true))) := by
  have hs := split_of_not_infix text "\n\n" h
  refine ⟨hs, ?_, ?_⟩
  · intro he
    unfold onChunk
    rw [hs, he, forLines_cons_empty]
    rfl
  · intro hne
    refine ⟨?_, ?_, ?_⟩
    · intro hc
      unfold onChunk
      rw [hs]
      exact forLines_cons_cancel random text [] w ((includes_iff _ _).2 hc)
    · intro hc hd
      have hc1 : includes text "CANCELLED" = false := by
        cases hb : includes text "CANCELLED" with
        | false => rfl
        | true => exact absurd ((includes_iff _ _).1 hb) hc
      unfold onChunk
      rw [hs, forLines_cons_done random text [] w hne hc1 ((startsWith_iff _ _).2 hd)]
      rfl
    · intro hc hd
      have hc1 : includes text "CANCELLED" = false := by
        cases hb : includes text "CANCELLED" with
        | false => rfl
        | true => exact absurd ((includes_iff _ _).1 hb) hc
      have hd1 : startsWith text "done" = false := by
        cases hb : startsWith text "done" with
        | false => rfl
        | true => exact absurd ((startsWith_iff _ _).1 hb) hd
      unfold onChunk
      rw [hs, forLines_cons_progress random text [] w hne hc1 hd1]
      rfl

/-- Witness for C5, amended: the chunk `"building"` is dispatched as one Progress frame. -/
theorem readStream_chunk_without_delimiter_witness :
    onChunk (fun _ => 0) "building" (World.init blankUI)
      = (handleProgress (fun _ => 0) "building" (World.init blankUI), true) :=
  ((readStream_chunk_without_delimiter (fun _ => 0) "building" (World.init blankUI)
    (by decide)).2.2 (by decide)).2.2 (by decide) (by decide)

/-! ## Claims on the click handlers -/

/-- C6: the two cancellation paths converge on the same UI state.  For every prior state,
a frame that contains `"CANCELLED"` leaves the progress bar width and the progress text at
`"0%"` and the info panel at the cancelled message; and so does an invocation of the run
handler whose `fetch` is rejected with an error named `AbortError`, whatever clicks are
handled while the request is pending.  On the second path the `catch` block writes the info
panel only: the two `"0%"` values are the ones the handler wrote in lines 31-32 before it
issued the request. -/
theorem cancellation_paths_converge (random : Nat → ℚ) (w : World) (line : String)
    (rest : List String) (file : Option File) (demoFile : String) (during : List Click) :
    ("CANCELLED".data <:+: line.data →
      (forLines random (line :: rest) w).1.ui.progressBarWidth = "0%" ∧
      (forLines random (line :: rest) w).1.ui.progressText = "0%" ∧
      (forLines random (line :: rest) w).1.ui.infoPanel = cancelledMessage) ∧
    (∃ w1, runHandler random file demoFile during
          (FetchResult.rejected { name := "AbortError" }) w = Except.ok w1 ∧
      w1.ui.progressBarWidth = "0%" ∧ w1.ui.progressText = "0%" ∧
      w1.ui.infoPanel = cancelledMessage) ∧
    (∀ w0 : World, (catchHandler { name := "AbortError" } w0).ui =
      { w0.ui with infoPanel := cancelledMessage }) ∧
    includes cancelledMessage "Operation Cancelled" = true := by
  refine ⟨?_, ?_, fun _ => rfl, by decide⟩
  · intro hc
    rw [forLines_cons_cancel random line rest w ((includes_iff _ _).2 hc)]
    exact ⟨rfl, rfl, rfl⟩
  · obtain ⟨w2, h2, p2⟩ := execClicks_ok during
      { ui := { progressBarWidth := "0%", progressText := "0%", downloadsDiv := "",
                mapPreview := "", infoPanel := "" }
        currentController := some (afterAbortCurrent w).controllers.length
        controllers := (afterAbortCurrent w).controllers ++ [false]
        randomCalls := (afterAbortCurrent w).randomCalls
        trace := (afterAbortCurrent w).trace
          ++ [Effect.create (afterAbortCurrent w).controllers.length]
          ++ [Effect.fetchRun (buildFormData file demoFile)
                (afterAbortCurrent w).controllers.length] }
    have hp := p2 ⟨rfl, rfl⟩
    refine ⟨catchHandler { name := "AbortError" } w2, ?_, hp.1, hp.2, rfl⟩
    unfold runHandler
    rw [runClick_eq]
    simp only [h2]
    rfl

/-- Witness for C6: the frame `"job CANCELLED by user"` handled on a page showing `"45%"`,
and a run click on that page that is cancelled while its request is pending. -/
theorem cancellation_paths_converge_witness :
    (forLines (fun _ => 0) ["job CANCELLED by user"]
      { World.init { blankUI with progressBarWidth := "45%", progressText := "45%" } with
        randomCalls := 3 }).1.ui.progressText = "0%" ∧
    (∃ w1, runHandler (fun _ => 0) none "sample.geojson" [Click.cancel]
          (FetchResult.rejected { name := "AbortError" })
          (World.init { blankUI with progressBarWidth := "45%", progressText := "45%" })
        = Except.ok w1 ∧
      w1.ui.progressBarWidth = "0%" ∧ w1.ui.progressText = "0%" ∧
      w1.ui.infoPanel = cancelledMessage) :=
  ⟨((cancellation_paths_converge (fun _ => 0)
      { World.init { blankUI with progressBarWidth := "45%", progressText := "45%" } with
        randomCalls := 3 }
      "job CANCELLED by user" [] none "sample.geojson" [Click.cancel]).1 (by decide)).2.1,
   (cancellation_paths_converge (fun _ => 0)
      (World.init { blankUI with progressBarWidth := "45%", progressText := "45%" })
      "job CANCELLED by user" [] none "sample.geojson" [Click.cancel]).2.1⟩

/-- C7: at most one job is in flight.  After every sequence of run clicks, cancel clicks
and settled requests, and at every point inside the handler of a further click, every
controller that is not aborted is the one held in `currentController`.  A run click made
after any such sequence first aborts the controller stored by the previous run, if any,
then creates the new controller, then issues the request with the new signal: when the
request is issued every earlier controller is aborted and the new one is the only live
one. -/
theorem run_click_single_flight (ui : UI) (events : List PageEvent) (c : Click) (i : Nat)
    (file : Option File) (demoFile : String) :
    (∃ w, exec (events.flatMap eventSteps ++ (clickSteps c).take i) (World.init ui)
        = Except.ok w ∧ AtMostOneLive w) ∧
    (∃ w w1, exec (events.flatMap eventSteps) (World.init ui) = Except.ok w ∧
      runClick file demoFile w = Except.ok w1 ∧
      w1.trace = w.trace
        ++ (match w.currentController with
            | some p => [Effect.abort p]
            | none => [])
        ++ [Effect.create w.controllers.length,
            Effect.fetchRun (buildFormData file demoFile) w.controllers.length] ∧
      w1.currentController = some w.controllers.length ∧
      w1.controllers = List.replicate w.controllers.length true ++ [false]) := by
  obtain ⟨w, hw, hinv⟩ := execEvents_inv events (World.init ui) (init_atMostOneLive ui)
  refine ⟨?_, ?_⟩
  · obtain ⟨w1, h1, p1⟩ := execSteps_prefix_inv c i w hinv
    refine ⟨w1, ?_, p1⟩
    rw [exec_append, hw]
    exact h1
  · have hab := afterAbortCurrent_allAborted w hinv
    refine ⟨w, _, hw, runClick_eq file demoFile w, ?_, ?_, ?_⟩
    · simp only [afterAbortCurrent_trace, afterAbortCurrent_length, List.append_assoc,
        List.singleton_append]
    · simp only [afterAbortCurrent_length]
    · have hr := allAborted_replicate hab
      simp only [afterAbortCurrent_length] at hr ⊢
      rw [← hr]

/-- C8: the cancel click handler, invoked while `currentController` is `null`, does not
throw and leaves the whole state unchanged; when a controller is stored it only signals
that controller: its flag becomes aborted and nothing else changes. -/
theorem cancelClick_spec (w : World) :
    (w.currentController = none → cancelClick w = Except.ok w) ∧
    (∀ c, w.currentController = some c →
      ∃ w1, cancelClick w = Except.ok w1 ∧
        w1.controllers = w.controllers.set c true ∧
        w1.trace = w.trace ++ [Effect.abort c] ∧
        w1.ui = w.ui ∧ w1.currentController = w.currentController ∧
        w1.randomCalls = w.randomCalls) := by
  refine ⟨?_, ?_⟩
  · intro h
    rw [cancelClick_eq]
    unfold afterAbortCurrent
    rw [h]
  · intro c h
    refine ⟨abortController c w, ?_, rfl, rfl, rfl, rfl, rfl⟩
    rw [cancelClick_eq]
    unfold afterAbortCurrent
    rw [h]

/-- Witness for C8: a cancel click on the freshly loaded page, and one after a run click. -/
theorem cancelClick_spec_witness :
    cancelClick (World.init blankUI) = Except.ok (World.init blankUI) ∧
    (∃ w1, cancelClick
        { World.init blankUI with currentController := some 0, controllers := [false] }
          = Except.ok w1 ∧
      w1.controllers = [false].set 0 true ∧
      w1.trace = [] ++ [Effect.abort 0] ∧
      w1.ui = blankUI ∧ w1.currentController = some 0 ∧ w1.randomCalls = 0) :=
  ⟨(cancelClick_spec (World.init blankUI)).1 rfl,
   (cancelClick_spec
      { World.init blankUI with currentController := some 0, controllers := [false] }).2 0 rfl⟩

/-- C9: for every uploaded file (present or absent) and every selected sample identifier,
the form of the run request carries exactly one field: `"geojson_file"` with the uploaded
file when a file is present, otherwise `"demo_file"` with the identifier; and this form is
the body of the request the run click issues. -/
theorem buildFormData_one_field (file : Option File) (demoFile : String) (w : World) :
    (buildFormData file demoFile).length = 1 ∧
    (∀ f, file = some f →
      buildFormData file demoFile = [("geojson_file", FormValue.file f)]) ∧
    (file = none → buildFormData file demoFile = [("demo_file", FormValue.text demoFile)]) ∧
    (∃ w1 c, runClick file demoFile w = Except.ok w1 ∧
      w1.trace.getLast? = some (Effect.fetchRun (buildFormData file demoFile) c) ∧
      w1.currentController = some c) := by
  refine ⟨?_, ?_, ?_, ?_⟩
  · cases file <;> rfl
  · intro f hf
    rw [hf]
    rfl
  · intro hf
    rw [hf]
    rfl
  · refine ⟨_, (afterAbortCurrent w).controllers.length, runClick_eq file demoFile w, ?_, rfl⟩
    simp

/-- Witness for C9: with a file present only `"geojson_file"` is sent, and with none only
`"demo_file"`, also for the empty identifier. -/
theorem buildFormData_one_field_witness :
    buildFormData (some { name := "route.geojson", bytes := [123, 125] }) "sample"
      = [("geojson_file", FormValue.file { name := "route.geojson", bytes := [123, 125] })] ∧
    buildFormData none "" = [("demo_file", FormValue.text "")] :=
  ⟨(buildFormData_one_field (some { name := "route.geojson", bytes := [123, 125] }) "sample"
      (World.init blankUI)).2.1 _ rfl,
   (buildFormData_one_field none "" (World.init blankUI)).2.2.1 rfl⟩

/-! ## Claims on `haversine` -/

theorem realMath_signLaws : SignLaws realMath :=
  { sub_swap := fun x y => (neg_sub y x).symm
    neg_mul := fun x y => neg_mul x y
    neg_div := fun x y => neg_div y x
    sin_neg := fun x => Real.sin_neg x
    neg_sq := fun x => neg_sq x
    mul_comm := fun x y => mul_comm x y }

/-- C10: `haversine` is symmetric.  For all latitudes and longitudes,
`haversine lat1 lon1 lat2 lon2 = haversine lat2 lon2 lat1 lon1`, in every arithmetic that
satisfies the sign laws, the real numbers among them. -/
theorem haversine_symmetric {α : Type} [Add α] [Sub α] [Mul α] [Div α] [Neg α] [HPow α ℕ α]
    [OfNat α 1] [OfNat α 2] [OfNat α 180] [OfNat α 6371]
    (M : JSMath α) (laws : SignLaws M) (lat1 lon1 lat2 lon2 : α) :
    haversine M lat1 lon1 lat2 lon2 = haversine M lat2 lon2 lat1 lon1 := by
  have hsin : ∀ x y : α,
      M.sin ((x - y) * M.PI / 180 / 2) ^ 2 = M.sin ((y - x) * M.PI / 180 / 2) ^ 2 := by
    intro x y
    rw [laws.sub_swap x y, laws.neg_mul, laws.neg_div, laws.neg_div, laws.sin_neg,
      laws.neg_sq]
  unfold haversine
  simp only
  rw [hsin lat2 lat1, hsin lon2 lon1,
    laws.mul_comm (M.cos (lat1 * M.PI / 180)) (M.cos (lat2 * M.PI / 180))]

/-- Witness for C10: over the reals, the distance from `(51, 0)` to `(48, 2)` equals the
distance from `(48, 2)` to `(51, 0)`. -/
theorem haversine_symmetric_witness :
    haversine realMath 51 0 48 2 = haversine realMath 48 2 51 0 :=
  haversine_symmetric realMath realMath_signLaws 51 0 48 2

/-! ## Lemmas on the playback -/

theorem onTick_finished (p : Playback) (info : String) (h : p.latlngs.length ≤ p.idx) :
    onTick p info = Except.ok ({ p with interval := false }, info) := by
  unfold onTick
  rw [if_pos h]

theorem onTick_first (p : Playback) (info : String) (h0 : p.idx = 0)
    (hn : 0 < p.latlngs.length) :
    onTick p info = Except.ok ({ p with marker := p.latlngs[0]?, idx := 1 }, info) := by
  unfold onTick
  rw [if_neg (by omega)]
  simp [updateStats, h0]

theorem onTick_leg (p : Playback) (info : String) (h0 : 0 < p.idx)
    (hn : p.idx < p.latlngs.length) :
    onTick p info = Except.ok
      ({ p with
         marker := p.latlngs[p.idx]?
         totalDistance := p.totalDistance + leg p.latlngs (p.idx - 1)
         idx := p.idx + 1 },
       statsMarkup (p.totalDistance + leg p.latlngs (p.idx - 1))) := by
  have h1 : p.idx - 1 < p.latlngs.length := by omega
  have e1 : p.latlngs[p.idx - 1]? = some (p.latlngs[p.idx - 1]) := List.getElem?_eq_getElem h1
  have e2 : p.latlngs[p.idx]? = some (p.latlngs[p.idx]) := List.getElem?_eq_getElem hn
  have e3 : p.idx - 1 + 1 = p.idx := by omega
  have hleg : leg p.latlngs (p.idx - 1) =
      haversine realMath (p.latlngs[p.idx - 1]).1 (p.latlngs[p.idx - 1]).2
        (p.latlngs[p.idx]).1 (p.latlngs[p.idx]).2 := by
    unfold leg
    rw [e3, e1, e2]
  unfold onTick
  rw [if_neg (by omega)]
  unfold updateStats
  simp only
  rw [if_neg (by omega), e1, e2, hleg]

theorem onTick_ok (p : Playback) (info : String) : ∃ r, onTick p info = Except.ok r := by
  by_cases h : p.latlngs.length ≤ p.idx
  · exact ⟨_, onTick_finished p info h⟩
  · by_cases h0 : p.idx = 0
    · exact ⟨_, onTick_first p info h0 (by omega)⟩
    · exact ⟨_, onTick_leg p info (by omega) (by omega)⟩

theorem distanceAfter_succ (l : List (ℝ × ℝ)) (k : Nat) (hk : 0 < k) :
    distanceAfter l (k + 1) = distanceAfter l k + leg l (k - 1) := by
  unfold distanceAfter
  have e : k + 1 - 1 = (k - 1) + 1 := by omega
  rw [e, Finset.sum_range_succ]

theorem timerFires_playbackAfter (l : List (ℝ × ℝ)) (info0 : String) (k : Nat) :
    timerFires (playbackAfter l info0 k).1 (playbackAfter l info0 k).2 =
      Except.ok (playbackAfter l info0 (k + 1)) := by
  rcases Nat.lt_trichotomy k l.length with hlt | heq | hgt
  · -- the cursor is inside the route
    have hm : min k l.length = k := Nat.min_eq_left (le_of_lt hlt)
    have hm1 : min (k + 1) l.length = k + 1 := Nat.min_eq_left hlt
    have hi : decide (k ≤ l.length) = true := decide_eq_true (le_of_lt hlt)
    have hi1 : decide (k + 1 ≤ l.length) = true := decide_eq_true hlt
    unfold timerFires
    simp only [playbackAfter, hm, hm1, hi, hi1, if_true]
    by_cases h0 : k = 0
    · subst h0
      rw [onTick_first _ _ rfl hlt]
      simp [distanceAfter]
    · rw [onTick_leg _ _ (by show 0 < k; omega) (by show k < l.length; exact hlt)]
      have hk1 : ¬ k ≤ 1 ∨ k = 1 := by omega
      simp only [distanceAfter_succ l k (by omega), Nat.add_sub_cancel]
      have h2 : ¬ k + 1 ≤ 1 := by omega
      rw [if_neg h2]
  · -- the cursor has reached the length: the timer is cleared
    have hm : min k l.length = l.length := by rw [heq]; exact Nat.min_self _
    have hm1 : min (k + 1) l.length = l.length := Nat.min_eq_right (by omega)
    have hi : decide (k ≤ l.length) = true := decide_eq_true (by omega)
    have hi1 : decide (k + 1 ≤ l.length) = false := decide_eq_false (by omega)
    unfold timerFires
    simp only [playbackAfter, hm, hm1, hi, hi1, if_true]
    rw [onTick_finished _ _ (by show l.length ≤ l.length; exact le_refl _)]
  · -- the timer is no longer set
    have hm : min k l.length = l.length := Nat.min_eq_right (le_of_lt hgt)
    have hm1 : min (k + 1) l.length = l.length := Nat.min_eq_right (by omega)
    have hi : decide (k ≤ l.length) = false := decide_eq_false (by omega)
    have hi1 : decide (k + 1 ≤ l.length) = false := decide_eq_false (by omega)
    unfold timerFires
    simp only [playbackAfter, hm, hm1, hi, hi1]
    rfl

theorem playbackAfter_zero (l : List (ℝ × ℝ)) (info0 : String) :
    playbackAfter l info0 0 = (startPlayback l, info0) := by
  simp [playbackAfter, startPlayback, distanceAfter]

theorem runTicks_eq (l : List (ℝ × ℝ)) (info0 : String) (k : Nat) :
    runTicks k (startPlayback l, info0) = Except.ok (playbackAfter l info0 k) := by
  induction k with
  | zero => rw [playbackAfter_zero]; rfl
  | succ k ih =>
    rw [runTicks, ih]
    exact timerFires_playbackAfter l info0 k

/-! ## Lemmas on `haversine` over the reals -/

theorem atan2_sin_cos (θ : ℝ) (h0 : 0 ≤ θ) (h1 : θ ≤ Real.pi / 2) :
    atan2 (Real.sqrt (Real.sin θ ^ 2)) (Real.sqrt (1 - Real.sin θ ^ 2)) = θ := by
  have hpi := Real.pi_pos
  have hs : 0 ≤ Real.sin θ := Real.sin_nonneg_of_nonneg_of_le_pi h0 (by linarith)
  have hc : 0 ≤ Real.cos θ := Real.cos_nonneg_of_mem_Icc ⟨by linarith, h1⟩
  have e1 : Real.sqrt (Real.sin θ ^ 2) = Real.sin θ := Real.sqrt_sq hs
  have e2 : Real.sqrt (1 - Real.sin θ ^ 2) = Real.cos θ := by
    have : 1 - Real.sin θ ^ 2 = Real.cos θ ^ 2 := by
      have := Real.sin_sq_add_cos_sq θ
      linarith
    rw [this, Real.sqrt_sq hc]
  rw [e1, e2]
  unfold atan2
  have hz : (⟨Real.cos θ, Real.sin θ⟩ : ℂ) = Complex.cos θ + Complex.sin θ * Complex.I := by
    apply Complex.ext <;> simp [Complex.cos_ofReal_re, Complex.sin_ofReal_re]
  rw [hz]
  exact Complex.arg_cos_add_sin_mul_I ⟨by linarith, by linarith⟩

theorem haversine_one_degree_lat :
    haversine realMath 0 0 1 0 = 6371 * Real.pi / 180 := by
  have hpi := Real.pi_pos
  unfold haversine
  simp only [realMath]
  have e1 : ((1:ℝ) - 0) * Real.pi / 180 / 2 = Real.pi / 360 := by ring
  have e2 : ((0:ℝ) - 0) * Real.pi / 180 / 2 = 0 := by ring
  rw [e1, e2]
  simp only [zero_mul, zero_div, Real.cos_zero, Real.sin_zero, mul_one, one_mul]
  have e3 : Real.sin (Real.pi / 360) ^ 2 + Real.cos (Real.pi / 180) * 0 ^ 2
      = Real.sin (Real.pi / 360) ^ 2 := by ring
  rw [e3, atan2_sin_cos (Real.pi / 360) (by positivity) (by linarith)]
  ring

theorem one_degree_bounds :
    |6371 * Real.pi / 180 - 111.19| ≤ 0.5 ∧ ⌊6371 * Real.pi / 180 / 60 * 60⌋ = 111 := by
  have h1 := Real.pi_gt_d6
  have h2 := Real.pi_lt_d6
  refine ⟨?_, ?_⟩
  · rw [abs_le]
    constructor <;> norm_num <;> linarith
  · rw [Int.floor_eq_iff]
    constructor <;> norm_num <;> linarith

/-! ## Claims on `haversine` values -/

/-- C11: for every point `(lat, lon)`, `haversine lat lon lat lon = 0`, with JavaScript
numbers read as real numbers. -/
theorem haversine_identical_points (lat lon : ℝ) :
    haversine realMath lat lon lat lon = 0 := by
  have hz : (⟨1, 0⟩ : ℂ) = 1 := rfl
  unfold haversine
  simp [realMath, atan2, hz]

/-- C12: for every longitude `lon`, the haversine distance between the equator points
`(0, lon)` and `(0, lon + 1)` equals `6371 * π / 180`, which is within `0.5` km of
`111.19` km. -/
theorem haversine_equator_one_degree (lon : ℝ) :
    haversine realMath 0 lon 0 (lon + 1) = 6371 * Real.pi / 180 ∧
    |haversine realMath 0 lon 0 (lon + 1) - 111.19| ≤ 0.5 := by
  have hpi := Real.pi_pos
  have hval : haversine realMath 0 lon 0 (lon + 1) = 6371 * Real.pi / 180 := by
    unfold haversine
    simp only [realMath]
    have e1 : (lon + 1 - lon) * Real.pi / 180 / 2 = Real.pi / 360 := by ring
    have e2 : ((0:ℝ) - 0) * Real.pi / 180 / 2 = 0 := by ring
    rw [e1, e2]
    simp only [zero_mul, zero_div, Real.cos_zero, Real.sin_zero, mul_one, one_mul]
    have e3 : (0:ℝ) ^ 2 + Real.sin (Real.pi / 360) ^ 2 = Real.sin (Real.pi / 360) ^ 2 := by
      ring
    rw [e3, atan2_sin_cos (Real.pi / 360) (by positivity) (by linarith)]
    ring
  refine ⟨hval, ?_⟩
  rw [hval]
  exact one_degree_bounds.1

/-! ## Claims on the playback -/

/-- C13: the playback state machine.  For every route of `n` points, `n ≥ 1` included, and
every number `k` of timer periods since the start: the cursor is `min k n`, so it never exceeds `n`;
while the cursor is below `n` the timer is set and the tick advances the cursor by exactly
one; the tick that fires with the cursor at `n` clears the timer and changes neither the
cursor, nor the accumulated distance, nor the marker, nor the info panel; and once the
timer is cleared nothing changes any more.  A tick on any playback whose cursor is below
the length of its route advances the cursor by exactly one. -/
theorem playback_state_machine (l : List (ℝ × ℝ)) (info : String) (k : Nat) :
    (∃ s s1, runTicks k (startPlayback l, info) = Except.ok s ∧
      runTicks (k + 1) (startPlayback l, info) = Except.ok s1 ∧
      timerFires s.1 s.2 = Except.ok s1 ∧
      s.1.idx = min k l.length ∧ s.1.idx ≤ l.length ∧
      (s.1.idx < l.length → s.1.interval = true ∧ s1.1.idx = s.1.idx + 1) ∧
      (s.1.idx = l.length → s1.1.interval = false ∧ s1.1.idx = s.1.idx ∧
        s1.1.totalDistance = s.1.totalDistance ∧ s1.1.marker = s.1.marker ∧ s1.2 = s.2) ∧
      (s.1.interval = false → s1 = s)) ∧
    (∀ (p : Playback) (text : String), p.idx < p.latlngs.length →
      ∃ r, onTick p text = Except.ok r ∧ r.1.idx = p.idx + 1) := by
  refine ⟨⟨playbackAfter l info k, playbackAfter l info (k + 1), runTicks_eq l info k,
    runTicks_eq l info (k + 1), timerFires_playbackAfter l info k, rfl,
    Nat.min_le_right _ _, ?_, ?_, ?_⟩, ?_⟩
  · intro h
    have hk : k < l.length := by
      simp only [playbackAfter] at h
      omega
    refine ⟨?_, ?_⟩
    · simp only [playbackAfter]
      exact decide_eq_true (le_of_lt hk)
    · simp only [playbackAfter]
      omega
  · intro h
    have hk : l.length ≤ k := by
      simp only [playbackAfter] at h
      omega
    have hm : min k l.length = l.length := Nat.min_eq_right hk
    have hm1 : min (k + 1) l.length = l.length := Nat.min_eq_right (by omega)
    simp only [playbackAfter, hm, hm1]
    refine ⟨decide_eq_false (by omega), trivial, trivial, trivial, trivial⟩
  · intro h
    have hk : l.length < k := by
      simp only [playbackAfter, decide_eq_false_iff_not] at h
      omega
    have hm : min k l.length = l.length := Nat.min_eq_right (le_of_lt hk)
    have hm1 : min (k + 1) l.length = l.length := Nat.min_eq_right (by omega)
    have hi : decide (k ≤ l.length) = false := decide_eq_false (by omega)
    have hi1 : decide (k + 1 ≤ l.length) = false := decide_eq_false (by omega)
    simp only [playbackAfter, hm, hm1, hi, hi1]
  · intro p text hp
    by_cases h0 : p.idx = 0
    · exact ⟨_, onTick_first p text h0 (by omega), by simp [h0]⟩
    · exact ⟨_, onTick_leg p text (by omega) hp, rfl⟩

/-- Witness for C13: on a route of two points the cursor is `2` after two periods, and the
third period clears the timer. -/
theorem playback_state_machine_witness :
    ∃ s s1, runTicks 2 (startPlayback [(0, 0), (1, 0)], "") = Except.ok s ∧
      runTicks 3 (startPlayback [(0, 0), (1, 0)], "") = Except.ok s1 ∧
      s.1.idx = 2 ∧ s1.1.idx = 2 ∧ s1.1.interval = false := by
  obtain ⟨s, s1, h1, h2, _, h4, _, _, h7, _⟩ :=
    (playback_state_machine [(0, 0), (1, 0)] "" 2).1
  have hidx : s.1.idx = 2 := by simpa using h4
  have h := h7 (by simpa using hidx)
  exact ⟨s, s1, h1, h2, hidx, by rw [h.2.1, hidx], h.1⟩

/-- C14: per-tick telemetry.  A tick that fires with cursor `i`, `0 < i < n`, adds the
haversine distance from point `i - 1` to point `i` to the accumulated distance, moves the
marker to point `i`, and renders the markup of the new distance, whose minutes are
`⌊distance / 60 * 60⌋`.  The tick that fires with cursor `0` moves the marker to the first
point, leaves the accumulated distance as it is, which is `0` after the start, and leaves
the info panel as it is. -/
theorem tick_telemetry (p : Playback) (info : String) :
    (0 < p.idx → p.idx < p.latlngs.length →
      ∃ a b p1, p.latlngs[p.idx - 1]? = some a ∧ p.latlngs[p.idx]? = some b ∧
        onTick p info = Except.ok (p1, statsMarkup p1.totalDistance) ∧
        p1.totalDistance = p.totalDistance + haversine realMath a.1 a.2 b.1 b.2 ∧
        p1.idx = p.idx + 1 ∧ p1.marker = some b) ∧
    (p.idx = 0 → 0 < p.latlngs.length →
      ∃ p1, onTick p info = Except.ok (p1, info) ∧ p1.totalDistance = p.totalDistance ∧
        p1.idx = 1 ∧ p1.marker = p.latlngs[0]?) ∧
    (∀ d : ℝ, minutes d = ⌊d / 60 * 60⌋ ∧
      statsMarkup d = "<p>Distance: " ++ toFixed2 d ++ " km | Time: "
        ++ toString ⌊d / 60 * 60⌋ ++ " min | Avg Speed: 60 km/h</p>") ∧
    (0 < p.latlngs.length →
      ∃ p1, runTicks 1 (startPlayback p.latlngs, info) = Except.ok (p1, info) ∧
        p1.totalDistance = 0) := by
  refine ⟨?_, ?_, fun d => ⟨rfl, rfl⟩, ?_⟩
  · intro h0 hn
    have h1 : p.idx - 1 < p.latlngs.length := by omega
    have e1 : p.latlngs[p.idx - 1]? = some (p.latlngs[p.idx - 1]) :=
      List.getElem?_eq_getElem h1
    have e2 : p.latlngs[p.idx]? = some (p.latlngs[p.idx]) := List.getElem?_eq_getElem hn
    have e3 : p.idx - 1 + 1 = p.idx := by omega
    have hleg : leg p.latlngs (p.idx - 1) =
        haversine realMath (p.latlngs[p.idx - 1]).1 (p.latlngs[p.idx - 1]).2
          (p.latlngs[p.idx]).1 (p.latlngs[p.idx]).2 := by
      unfold leg
      rw [e3, e1, e2]
    refine ⟨_, _, _, e1, e2, onTick_leg p info h0 hn, ?_, rfl, ?_⟩
    · simp only [hleg]
    · exact e2
  · intro h0 hn
    exact ⟨_, onTick_first p info h0 hn, rfl, rfl, rfl⟩
  · intro hn
    refine ⟨(playbackAfter p.latlngs info 1).1, ?_, ?_⟩
    · rw [runTicks_eq]
      have hm : min 1 p.latlngs.length = 1 := Nat.min_eq_left hn
      simp [playbackAfter, hm]
    · have hm : min 1 p.latlngs.length = 1 := Nat.min_eq_left hn
      simp [playbackAfter, hm, distanceAfter]

/-- Witness for C14: on the route `(0, 0)`, `(1, 0)`, the tick with cursor `1` brings the
accumulated distance from `0` to the haversine distance of the two points. -/
theorem tick_telemetry_witness :
    ∃ a b p1,
      ([(0, 0), (1, 0)] : List (ℝ × ℝ))[1 - 1]? = some a ∧
      ([(0, 0), (1, 0)] : List (ℝ × ℝ))[1]? = some b ∧
      onTick { latlngs := [(0, 0), (1, 0)], marker := some (0, 0), idx := 1,
               totalDistance := 0, interval := true } ""
        = Except.ok (p1, statsMarkup p1.totalDistance) ∧
      p1.totalDistance = 0 + haversine realMath a.1 a.2 b.1 b.2 ∧
      p1.idx = 1 + 1 ∧ p1.marker = some b :=
  (tick_telemetry { latlngs := [(0, 0), (1, 0)], marker := some (0, 0), idx := 1,
                    totalDistance := 0, interval := true } "").1
    (by decide) (by simp)

theorem latlngsOf_one_degree :
    latlngsOf [(0, 0), (0, 1)] = [(0, 0), (1, 0)] := by
  simp [latlngsOf]

theorem distanceAfter_one_degree :
    distanceAfter [((0 : ℝ), (0 : ℝ)), (1, 0)] 2 = 6371 * Real.pi / 180 := by
  simp [distanceAfter, leg, haversine_one_degree_lat]

/-- Counterexample to C15 as stated: on the route `[(0,0), (0,1)]` the first tick fires
with cursor `0`: after one tick the accumulated distance is `0`, not within `0.5` km of
`111.19` km, and the info panel shows no telemetry. -/
theorem playback_one_degree_counterexample :
    ∃ s, runTicks 1 (startPlayback (latlngsOf [(0, 0), (0, 1)]), "") = Except.ok s ∧
      s.1.idx = 1 ∧ s.1.totalDistance = 0 ∧ s.2 = "" ∧
      ¬ |s.1.totalDistance - 111.19| ≤ 0.5 := by
  refine ⟨playbackAfter (latlngsOf [(0, 0), (0, 1)]) "" 1, runTicks_eq _ _ _, ?_, ?_, ?_, ?_⟩
  · simp [playbackAfter, latlngsOf]
  · simp [playbackAfter, latlngsOf, distanceAfter]
  · simp [playbackAfter, latlngsOf]
  · have h : (playbackAfter (latlngsOf [(0, 0), (0, 1)]) "" 1).1.totalDistance = 0 := by
      simp [playbackAfter, latlngsOf, distanceAfter]
    rw [h, abs_le]
    norm_num

/-- C15, amended: for the geometry `[(0,0), (0,1)]` (longitude, latitude pairs) played at
60 km/h, after one tick the accumulated distance is still `0`; after two ticks it is
`6371 * π / 180`, within `0.5` km of `111.19` km, the elapsed minutes are `111`, and the
info panel shows the markup of that distance. -/
theorem playback_one_degree (info : String) :
    (∃ s, runTicks 1 (startPlayback (latlngsOf [(0, 0), (0, 1)]), info) = Except.ok s ∧
      s.1.totalDistance = 0 ∧ s.2 = info) ∧
    (∃ s, runTicks 2 (startPlayback (latlngsOf [(0, 0), (0, 1)]), info) = Except.ok s ∧
      s.1.totalDistance = 6371 * Real.pi / 180 ∧
      |s.1.totalDistance - 111.19| ≤ 0.5 ∧
      minutes s.1.totalDistance = 111 ∧
      s.2 = statsMarkup s.1.totalDistance) ∧
    speed = 60 := by
  rw [latlngsOf_one_degree]
  refine ⟨⟨playbackAfter [(0, 0), (1, 0)] info 1, runTicks_eq _ _ _, ?_, ?_⟩,
    ⟨playbackAfter [(0, 0), (1, 0)] info 2, runTicks_eq _ _ _, ?_, ?_, ?_, ?_⟩, rfl⟩
  · simp [playbackAfter, distanceAfter]
  · simp [playbackAfter]
  · simp only [playbackAfter, List.length_cons, List.length_nil, Nat.min_self]
    exact distanceAfter_one_degree
  · simp only [playbackAfter, List.length_cons, List.length_nil, Nat.min_self]
    rw [distanceAfter_one_degree]
    exact one_degree_bounds.1
  · simp only [playbackAfter, List.length_cons, List.length_nil, Nat.min_self]
    rw [distanceAfter_one_degree]
    exact one_degree_bounds.2
  · simp [playbackAfter]

/-- Counterexample to C16 as stated: on a single-point route the timer is still set after
the first tick, although the cursor equals the length of the route. -/
theorem playback_single_point_counterexample :
    ∃ s, runTicks 1 (startPlayback (latlngsOf [(0, 0)]), "") = Except.ok s ∧
      s.1.idx = (latlngsOf [(0, 0)]).length ∧ s.1.interval = true := by
  refine ⟨playbackAfter (latlngsOf [(0, 0)]) "" 1, runTicks_eq _ _ _, ?_, ?_⟩
  · simp [playbackAfter, latlngsOf]
  · simp [playbackAfter, latlngsOf]

/-- C16, amended: for every single-point geometry no tick accrues distance: after any
number of ticks the accumulated distance is `0` and the info panel is untouched.  After
the first tick the cursor equals the length of the route and the timer is still set; the
second tick clears the timer and changes nothing else. -/
theorem playback_single_point (c : ℝ × ℝ) (info : String) (k : Nat) :
    ∃ s, runTicks k (startPlayback (latlngsOf [c]), info) = Except.ok s ∧
      s.1.totalDistance = 0 ∧ s.2 = info ∧
      (k = 1 → s.1.idx = 1 ∧ s.1.interval = true) ∧
      (2 ≤ k → s.1.idx = 1 ∧ s.1.interval = false ∧ s.1.marker = some (c.2, c.1)) := by
  have hl : (latlngsOf [c]).length = 1 := by simp [latlngsOf]
  have hm : min k 1 ≤ 1 := Nat.min_le_right _ _
  refine ⟨playbackAfter (latlngsOf [c]) info k, runTicks_eq _ _ _, ?_, ?_, ?_, ?_⟩
  · simp only [playbackAfter, hl, distanceAfter]
    have : min k 1 - 1 = 0 := by omega
    rw [this]
    simp
  · simp only [playbackAfter, hl, if_pos hm]
  · intro hk
    subst hk
    simp [playbackAfter, hl]
  · intro hk
    have hmin : min k 1 = 1 := Nat.min_eq_right (by omega)
    simp only [playbackAfter, hl, hmin]
    refine ⟨trivial, decide_eq_false (by omega), ?_⟩
    simp [latlngsOf]

/-- Witness for C16, amended: on the single point `(2, 48)` the second tick has cleared the
timer, with the cursor at `1` and the distance at `0`. -/
theorem playback_single_point_witness :
    ∃ s, runTicks 2 (startPlayback (latlngsOf [(2, 48)]), "") = Except.ok s ∧
      s.1.totalDistance = 0 ∧ s.1.idx = 1 ∧ s.1.interval = false := by
  obtain ⟨s, h1, h2, _, _, h5⟩ := playback_single_point (2, 48) "" 2
  exact ⟨s, h1, h2, (h5 (le_refl 2)).1, (h5 (le_refl 2)).2.1⟩

theorem leg_latlngsOf (coords : List (ℝ × ℝ)) (i : Nat) (hi : i + 1 < coords.length) :
    leg (latlngsOf coords) i =
      haversine realMath (coords.getD i (0, 0)).2 (coords.getD i (0, 0)).1
        (coords.getD (i + 1) (0, 0)).2 (coords.getD (i + 1) (0, 0)).1 := by
  have h0 : i < coords.length := by omega
  have e0 : (latlngsOf coords)[i]? = some ((coords[i]).2, (coords[i]).1) := by
    simp [latlngsOf, List.getElem?_eq_getElem h0]
  have e1 : (latlngsOf coords)[i + 1]? = some ((coords[i + 1]).2, (coords[i + 1]).1) := by
    simp [latlngsOf, List.getElem?_eq_getElem hi]
  have g0 : coords.getD i (0, 0) = coords[i] := by
    simp [List.getD_eq_getElem?_getD, List.getElem?_eq_getElem h0]
  have g1 : coords.getD (i + 1) (0, 0) = coords[i + 1] := by
    simp [List.getD_eq_getElem?_getD, List.getElem?_eq_getElem hi]
  unfold leg
  rw [e0, e1, g0, g1]

/-- C20: the end-to-end total.  For every coordinate list of the artifact with `n ≥ 1`
pairs `(lon_i, lat_i)`, `displayMap` on a fresh page starts one playback on the swapped
pairs, and once `n` or more ticks have fired the accumulated distance equals the sum over
the `n - 1` consecutive legs of `haversine lat_i lon_i lat_(i+1) lon_(i+1)`; after more
than `n` ticks the timer is cleared, so the total stays. -/
theorem playback_total_distance (lib : MapLibrary) (ui : UI) (coords : List (ℝ × ℝ))
    (info : String) (k : Nat) (hn : 1 ≤ coords.length) (hk : coords.length ≤ k) :
    displayMapLoaded lib coords (Page.init ui) =
      ({ Page.init ui with
         mapCreated := true
         playbacks := [startPlayback (latlngsOf coords)] }, none) ∧
    (∃ s, runTicks k (startPlayback (latlngsOf coords), info) = Except.ok s ∧
      s.1.totalDistance =
        Finset.sum (Finset.range (coords.length - 1)) (fun i =>
          haversine realMath (coords.getD i (0, 0)).2 (coords.getD i (0, 0)).1
            (coords.getD (i + 1) (0, 0)).2 (coords.getD (i + 1) (0, 0)).1) ∧
      s.1.idx = coords.length ∧
      (coords.length < k → s.1.interval = false)) := by
  have hl : (latlngsOf coords).length = coords.length := by simp [latlngsOf]
  refine ⟨?_, playbackAfter (latlngsOf coords) info k, runTicks_eq _ _ _, ?_, ?_, ?_⟩
  · have h0 : (latlngsOf coords)[0]?.isNone = false := by
      have : 0 < (latlngsOf coords).length := by omega
      simp [List.getElem?_eq_getElem this]
    unfold displayMapLoaded
    simp [Page.init, h0]
  · have hm : min k (latlngsOf coords).length = coords.length := by
      rw [hl]; exact Nat.min_eq_right hk
    simp only [playbackAfter, hm, distanceAfter]
    apply Finset.sum_congr rfl
    intro i hi
    have hi1 : i + 1 < coords.length := by
      have := Finset.mem_range.1 hi
      omega
    exact leg_latlngsOf coords i hi1
  · simp only [playbackAfter, hl]
    exact Nat.min_eq_right hk
  · intro hlt
    simp only [playbackAfter, hl]
    exact decide_eq_false (by omega)

/-- Witness for C20: on the route `(0,0)`, `(0,1)`, `(0,2)`, after three ticks the total is
the sum of the two legs, each taken latitude first. -/
theorem playback_total_distance_witness :
    ∃ s, runTicks 3 (startPlayback (latlngsOf [(0, 0), (0, 1), (0, 2)]), "") = Except.ok s ∧
      s.1.totalDistance = haversine realMath 0 0 1 0 + haversine realMath 1 0 2 0 := by
  obtain ⟨s, h1, h2, _⟩ :=
    (playback_total_distance leaflet blankUI [(0, 0), (0, 1), (0, 2)] "" 3
      (by simp) (by simp)).2
  refine ⟨s, h1, ?_⟩
  rw [h2]
  simp [Finset.sum_range_succ]

/-! ## Lemmas on route loads -/

theorem displayMapLoaded_refused (lib : MapLibrary) (coords : List (ℝ × ℝ)) (page : Page)
    (h : (page.mapCreated && !lib.reinit) = true) :
    displayMapLoaded lib coords page = (page, some { name := "Error" }) := by
  unfold displayMapLoaded
  rw [if_pos h]

theorem displayMapLoaded_undefined (lib : MapLibrary) (coords : List (ℝ × ℝ)) (page : Page)
    (h : (page.mapCreated && !lib.reinit) = false)
    (hu : ((latlngsOf coords)[0]?.isNone && !lib.undefinedPoint) = true) :
    displayMapLoaded lib coords page =
      ({ page with mapCreated := true }, some { name := "TypeError" }) := by
  unfold displayMapLoaded
  rw [if_neg (by rw [h]; exact Bool.false_ne_true), if_pos hu]

theorem displayMapLoaded_started (lib : MapLibrary) (coords : List (ℝ × ℝ)) (page : Page)
    (h : (page.mapCreated && !lib.reinit) = false)
    (hu : ((latlngsOf coords)[0]?.isNone && !lib.undefinedPoint) = false) :
    displayMapLoaded lib coords page =
      ({ page with
         mapCreated := true
         playbacks := page.playbacks ++ [startPlayback (latlngsOf coords)] }, none) := by
  unfold displayMapLoaded
  rw [if_neg (by rw [h]; exact Bool.false_ne_true),
    if_neg (by rw [hu]; exact Bool.false_ne_true)]

theorem displayMapLoaded_cases (lib : MapLibrary) (coords : List (ℝ × ℝ)) (page : Page) :
    ((displayMapLoaded lib coords page).2 = none ∧
      (displayMapLoaded lib coords page).1.playbacks =
        page.playbacks ++ [startPlayback (latlngsOf coords)] ∧
      (displayMapLoaded lib coords page).1.mapCreated = true) ∨
    ((displayMapLoaded lib coords page).2 ≠ none ∧
      (displayMapLoaded lib coords page).1.playbacks = page.playbacks ∧
      (page.mapCreated = true → (displayMapLoaded lib coords page).1.mapCreated = true)) := by
  cases h : (page.mapCreated && !lib.reinit) with
  | true =>
    right
    rw [displayMapLoaded_refused lib coords page h]
    exact ⟨by simp, rfl, id⟩
  | false =>
    cases hu : ((latlngsOf coords)[0]?.isNone && !lib.undefinedPoint) with
    | true =>
      right
      rw [displayMapLoaded_undefined lib coords page h hu]
      exact ⟨by simp, rfl, fun _ => rfl⟩
    | false =>
      left
      rw [displayMapLoaded_started lib coords page h hu]
      exact ⟨rfl, rfl, rfl⟩

theorem timerFires_ok (p : Playback) (info : String) :
    ∃ r, timerFires p info = Except.ok r := by
  unfold timerFires
  cases p.interval with
  | true => simpa using onTick_ok p info
  | false => exact ⟨_, rfl⟩

theorem fire_ok (k : Nat) (page : Page) :
    ∃ page1, fire k page = Except.ok page1 ∧
      page1.playbacks.length = page.playbacks.length ∧
      page1.mapCreated = page.mapCreated := by
  cases hp : page.playbacks[k]? with
  | none =>
    refine ⟨page, ?_, rfl, rfl⟩
    unfold fire
    rw [hp]
  | some p =>
    obtain ⟨r, hr⟩ := timerFires_ok p page.world.ui.infoPanel
    refine ⟨{ page with
        playbacks := page.playbacks.set k r.1
        world := { page.world with ui := { page.world.ui with infoPanel := r.2 } } },
      ?_, by simp, rfl⟩
    unfold fire
    rw [hp]
    simp only [hr]

theorem mapStep_tick (lib : MapLibrary) (k : Nat) (page : Page) :
    (mapStep lib (MapEvent.tick k) page).playbacks.length = page.playbacks.length ∧
    (mapStep lib (MapEvent.tick k) page).mapCreated = page.mapCreated := by
  obtain ⟨page1, h, hl, hm⟩ := fire_ok k page
  have e : mapStep lib (MapEvent.tick k) page = page1 := by
    unfold mapStep
    simp only [h]
  rw [e]
  exact ⟨hl, hm⟩

theorem runMap_cons (lib : MapLibrary) (e : MapEvent) (events : List MapEvent)
    (page : Page) : runMap lib (e :: events) page = runMap lib events (mapStep lib e page) :=
  rfl

theorem runMap_length_le (lib : MapLibrary) :
    ∀ (events : List MapEvent) (page : Page),
      (runMap lib events page).playbacks.length ≤ page.playbacks.length + loadCount events := by
  intro events
  induction events with
  | nil => intro page; exact le_refl _
  | cons e rest ih =>
    intro page
    rw [runMap_cons]
    have h := ih (mapStep lib e page)
    cases e with
    | tick k =>
      rw [(mapStep_tick lib k page).1] at h
      exact h
    | load coords =>
      have hl : (mapStep lib (MapEvent.load coords) page).playbacks.length
          ≤ page.playbacks.length + 1 := by
        show (displayMapLoaded lib coords page).1.playbacks.length ≤ _
        rcases displayMapLoaded_cases lib coords page with ⟨_, hp, _⟩ | ⟨_, hp, _⟩
        · rw [hp]; simp
        · rw [hp]; omega
      simp only [loadCount]
      omega

theorem activeTimers_le_length (page : Page) : activeTimers page ≤ page.playbacks.length :=
  List.length_filter_le _ _

/-! ## Claims on route loads -/

/-- Counterexample to C17 as stated: load the route `[(0,0), (0,1)]`, let one tick fire,
and load it again.  Whether the map library refuses the second map or creates it, the
playback of the first load is left with its timer set and its cursor at `1`: the load
cancelled nothing and reset nothing.  When the library creates the second map, the page
holds two playbacks with both timers set. -/
theorem displayMap_reload_counterexample :
    (runMap leaflet
        [MapEvent.load [(0, 0), (0, 1)], MapEvent.tick 0, MapEvent.load [(0, 0), (0, 1)]]
        (Page.init blankUI)).playbacks.map (fun p => (p.idx, p.interval)) = [(1, true)] ∧
    (runMap { reinit := true, undefinedPoint := false }
        [MapEvent.load [(0, 0), (0, 1)], MapEvent.tick 0, MapEvent.load [(0, 0), (0, 1)]]
        (Page.init blankUI)).playbacks.map (fun p => (p.idx, p.interval))
      = [(1, true), (0, true)] ∧
    activeTimers (runMap { reinit := true, undefinedPoint := false }
        [MapEvent.load [(0, 0), (0, 1)], MapEvent.tick 0, MapEvent.load [(0, 0), (0, 1)]]
        (Page.init blankUI)) = 2 := by
  refine ⟨?_, ?_, ?_⟩
  · simp [runMap, mapStep, displayMapLoaded, leaflet, Page.init, fire, timerFires,
      startPlayback, onTick, updateStats, latlngsOf]
  · simp [runMap, mapStep, displayMapLoaded, Page.init, fire, timerFires,
      startPlayback, onTick, updateStats, latlngsOf]
  · simp [activeTimers, runMap, mapStep, displayMapLoaded, Page.init, fire, timerFires,
      startPlayback, onTick, updateStats, latlngsOf]

/-- C17, amended: loading a route again does not reset playback.  For every map library, a
load never clears the timer of an earlier load and never changes its cursor or distance:
the earlier playbacks stay as they are.  A load that completes adds one playback of its
own, started with cursor `0`, distance `0` and its own timer, so the number of timers that
are set grows by one: timers are layered.  After every sequence of loads and ticks the
number of timers that are set is at most the number of loads. -/
theorem displayMap_never_resets (lib : MapLibrary) (coords : List (ℝ × ℝ)) (page : Page)
    (events : List MapEvent) (ui : UI) :
    (∃ added, (displayMapLoaded lib coords page).1.playbacks = page.playbacks ++ added) ∧
    ((displayMapLoaded lib coords page).2 = none →
      (displayMapLoaded lib coords page).1.playbacks =
        page.playbacks ++ [startPlayback (latlngsOf coords)] ∧
      activeTimers (displayMapLoaded lib coords page).1 = activeTimers page + 1) ∧
    ((startPlayback (latlngsOf coords)).idx = 0 ∧
      (startPlayback (latlngsOf coords)).totalDistance = 0 ∧
      (startPlayback (latlngsOf coords)).interval = true) ∧
    activeTimers (runMap lib events (Page.init ui)) ≤ loadCount events := by
  refine ⟨?_, ?_, ⟨rfl, rfl, rfl⟩, ?_⟩
  · rcases displayMapLoaded_cases lib coords page with ⟨_, hp, _⟩ | ⟨_, hp, _⟩
    · exact ⟨_, hp⟩
    · exact ⟨[], by rw [hp]; simp⟩
  · intro hnone
    rcases displayMapLoaded_cases lib coords page with ⟨_, hp, _⟩ | ⟨hne, _, _⟩
    · refine ⟨hp, ?_⟩
      unfold activeTimers
      rw [hp, List.filter_append, List.length_append]
      simp [startPlayback]
    · exact absurd hnone hne
  · have h1 := activeTimers_le_length (runMap lib events (Page.init ui))
    have h2 := runMap_length_le lib events (Page.init ui)
    have h3 : (Page.init ui).playbacks.length = 0 := rfl
    omega

/-- Witness for C17, amended: on a page whose first playback has its timer set, a second
load that completes brings the number of timers that are set from one to two. -/
theorem displayMap_never_resets_witness :
    activeTimers (displayMapLoaded { reinit := true, undefinedPoint := false }
        [(0, 0), (0, 1)]
        { Page.init blankUI with
          mapCreated := true
          playbacks := [startPlayback (latlngsOf [(0, 0), (0, 1)])] }).1
      = activeTimers
          { Page.init blankUI with
            mapCreated := true
            playbacks := [startPlayback (latlngsOf [(0, 0), (0, 1)])] } + 1 :=
  ((displayMap_never_resets { reinit := true, undefinedPoint := false } [(0, 0), (0, 1)]
    { Page.init blankUI with
      mapCreated := true
      playbacks := [startPlayback (latlngsOf [(0, 0), (0, 1)])] } [] blankUI).2.1
    (by simp [displayMapLoaded, latlngsOf])).2

/-- Counterexample to C18 as stated: with Leaflet, `displayMap` on a line feature with zero
coordinates raises a `TypeError` at line 95, where the `undefined` first point is passed to
`setView`, and no playback is started. -/
theorem displayMap_empty_counterexample :
    (displayMapLoaded leaflet [] (Page.init blankUI)).2 = some { name := "TypeError" } ∧
    (displayMapLoaded leaflet [] (Page.init blankUI)).1.playbacks = [] := by
  simp [displayMapLoaded, leaflet, Page.init, latlngsOf]

/-- C18, amended: for a line feature with zero coordinates, loaded on a page whose map
container holds no map yet, `displayMap` passes the `undefined` first point to the map
library.  If the library
refuses it, as Leaflet does, `displayMap` fails with a `TypeError` at line 95 before the
marker and the timer exist: no playback is started, so no distance accrues and no marker
moves.  If the library accepts it, playback is a no-op: the marker has no position, every
tick leaves the distance at `0`, the marker and the info panel as they are, and the first
tick clears the timer. -/
theorem displayMap_empty_geometry (lib : MapLibrary) (page : Page) (info : String) (k : Nat)
    (hfresh : page.mapCreated = false) :
    (lib.undefinedPoint = false →
      displayMapLoaded lib [] page =
        ({ page with mapCreated := true }, some { name := "TypeError" })) ∧
    (lib.undefinedPoint = true →
      displayMapLoaded lib [] page =
        ({ page with
           mapCreated := true
           playbacks := page.playbacks ++ [startPlayback []] }, none)) ∧
    timerFires (startPlayback []) info =
      Except.ok ({ startPlayback [] with interval := false }, info) ∧
    (∃ s, runTicks k (startPlayback [], info) = Except.ok s ∧
      s.1.totalDistance = 0 ∧ s.1.marker = none ∧ s.1.idx = 0 ∧ s.2 = info ∧
      (1 ≤ k → s.1.interval = false)) := by
  have h1 : (page.mapCreated && !lib.reinit) = false := by rw [hfresh]; rfl
  have hl : latlngsOf [] = [] := rfl
  refine ⟨?_, ?_, ?_, ?_⟩
  · intro hu
    exact displayMapLoaded_undefined lib [] page h1 (by rw [hu, hl]; rfl)
  · intro hu
    have := displayMapLoaded_started lib [] page h1 (by rw [hu, hl]; rfl)
    rw [hl] at this
    exact this
  · have hi : (startPlayback []).interval = true := rfl
    unfold timerFires
    rw [if_pos hi]
    exact onTick_finished (startPlayback []) info (le_refl _)
  · refine ⟨playbackAfter [] info k, runTicks_eq [] info k, ?_, ?_, ?_, ?_, ?_⟩
    · simp [playbackAfter, distanceAfter]
    · simp [playbackAfter]
    · simp [playbackAfter]
    · simp [playbackAfter]
    · intro hk
      simp only [playbackAfter, List.length_nil]
      exact decide_eq_false (by omega)

/-- Witness for C18, amended: on the freshly loaded page Leaflet refuses the empty route with
a `TypeError`. -/
theorem displayMap_empty_geometry_witness :
    displayMapLoaded leaflet [] (Page.init blankUI) =
      ({ Page.init blankUI with mapCreated := true }, some { name := "TypeError" }) :=
  (displayMap_empty_geometry leaflet (Page.init blankUI) "" 1 rfl).1 rfl

end RewritingTheRails
